import Mathlib

/-!
Verification of the retro-3d portal/sector software renderer.

We shallowly embed the renderer's data model and algorithms in Lean:
`f32` values become exact rationals (`ℚ`), Rust `usize`/`u16`/`u8` become
`ℕ`, the saturating `as usize` cast and the `to_int_unchecked` casts become
`ratToNat` (floor, with negative values mapped to 0), and the rasterisation
loops become structural recursions that also return the list of framebuffer
writes they perform.  Buffers indexed by screen column are embedded as
functions `ℕ → ℕ`.
-/

namespace Retro

/-! ### Rust numeric primitives -/

/-- The saturating float-to-unsigned cast (`as usize` / `to_int_unchecked`):
floor of the rational, with negative values mapped to `0`. -/
def ratToNat (q : ℚ) : ℕ := q.floor.toNat

/-- Rust `usize::clamp(self, min, max)` (callers guarantee `min ≤ max`). -/
def usizeClamp (v lo hi : ℕ) : ℕ := if v < lo then lo else if v > hi then hi else v

theorem usizeClamp_le_right (v lo hi : ℕ) (h : lo ≤ hi) : usizeClamp v lo hi ≤ hi := by
  unfold usizeClamp
  split
  · exact h
  · split
    · exact le_refl hi
    · omega

theorem usizeClamp_ge_left (v lo hi : ℕ) (h : lo ≤ hi) : lo ≤ usizeClamp v lo hi := by
  unfold usizeClamp
  split
  · exact le_refl lo
  · split
    · exact h
    · omega

theorem usizeClamp_eq_max_min {lo hi : ℕ} (v : ℕ) (h : lo ≤ hi) :
    usizeClamp v lo hi = max lo (min v hi) := by
  unfold usizeClamp
  split
  · omega
  · split <;> omega

theorem usizeClamp_mono {v w lo hi : ℕ} (h : lo ≤ hi) (hvw : v ≤ w) :
    usizeClamp v lo hi ≤ usizeClamp w lo hi := by
  rw [usizeClamp_eq_max_min v h, usizeClamp_eq_max_min w h]
  omega

/-! ### consts.rs -/

def NEAR : ℚ := 1 / 100000

def FAR : ℚ := 512

def MAP_DEPTH_RANGE : ℚ := 1 / (FAR - NEAR)

def MIP_LEVELS : ℕ := 3

def MIP_FACTOR : ℚ := 4

def MIP_SCALES : List ℚ := [1 / 1, 1 / 2, 1 / 4]

/-! ### textures.rs also declares its own copies of the mip constants,
with one more level; `plane.rs` imports `MIP_SCALES` from `textures.rs`
while `wall.rs`/`sprite.rs`/`util.rs` import the `consts.rs` versions. -/

def TexMIP_LEVELS : ℕ := 4

def TexMIP_FACTOR : ℚ := 8

def TexMIP_SCALES : List ℚ := [1 / 1, 1 / 2, 1 / 4, 1 / 8]

/-! ### renderer/util.rs -/

/-- Embeds `util.rs::normalise_depth`. -/
def normalise_depth (depth : ℚ) : ℚ := (depth - NEAR) * MAP_DEPTH_RANGE

/-- Embeds `util.rs::mip_level`: `(((MIP_FACTOR + bias) * normal_depth) as usize).min(MIP_LEVELS - 1)`. -/
def mip_level (normal_depth bias : ℚ) : ℕ :=
  min (ratToNat ((MIP_FACTOR + bias) * normal_depth)) (MIP_LEVELS - 1)

/-- Embeds `util.rs::diminish_lighting`: `((l*l*l) * 1.5).min(1.0)` with `l = 1 - normal_depth`. -/
def diminish_lighting (normal_depth : ℚ) : ℚ :=
  min ((1 - normal_depth) * (1 - normal_depth) * (1 - normal_depth) * (3 / 2)) 1

/-! ### colour.rs -/

/-- Embeds `colour.rs::BGRA8`, channels as natural numbers below 256. -/
structure BGRA8 where
  b : ℕ
  g : ℕ
  r : ℕ
  a : ℕ
deriving DecidableEq, Repr

/-- Embeds `BGRA8::new(red, green, blue, alpha)`. -/
def BGRA8.new (red green blue alpha : ℕ) : BGRA8 := ⟨blue, green, red, alpha⟩

/-- Embeds `BGRA8::default()` (all channels zero). -/
def BGRA8.default : BGRA8 := ⟨0, 0, 0, 0⟩

/-- Embeds `colour.rs::BGRA8::darken`: each colour channel is `(c * d) >> 8`; the
alpha channel is copied unchanged. -/
def BGRA8.darken (c : BGRA8) (d : ℕ) : BGRA8 :=
  ⟨c.b * d / 256, c.g * d / 256, c.r * d / 256, c.a⟩

/-- Embeds `colour.rs::BGRA8::lighten`: each colour channel is `((c * l) >> 8).max(0xFF)`;
the alpha channel is copied unchanged. -/
def BGRA8.lighten (c : BGRA8) (l : ℕ) : BGRA8 :=
  ⟨max (c.b * l / 256) 255, max (c.g * l / 256) 255, max (c.r * l / 256) 255, c.a⟩

/-- Embeds `colour.rs::BGRA8::blend`. -/
def BGRA8.blend (c other : BGRA8) : BGRA8 :=
  ⟨(c.b * c.a + other.b * (255 - c.a)) / 256,
   (c.g * c.a + other.g * (255 - c.a)) / 256,
   (c.r * c.a + other.r * (255 - c.a)) / 256, 255⟩

/-! ### lib/maths: Vec2f, Segment, Polygon, AABB (the parts the renderer uses) -/

/-- Embeds `maths::linear::Vec2f` with exact rational coordinates. -/
structure Vec2 where
  x : ℚ
  y : ℚ
deriving DecidableEq, Repr

def Vec2.add (v w : Vec2) : Vec2 := ⟨v.x + w.x, v.y + w.y⟩

def Vec2.sub (v w : Vec2) : Vec2 := ⟨v.x - w.x, v.y - w.y⟩

def Vec2.neg (v : Vec2) : Vec2 := ⟨-v.x, -v.y⟩

def Vec2.mul (v w : Vec2) : Vec2 := ⟨v.x * w.x, v.y * w.y⟩

def Vec2.smul (v : Vec2) (s : ℚ) : Vec2 := ⟨v.x * s, v.y * s⟩

/-- Embeds `Vec2f::dot`. -/
def Vec2.dot (v w : Vec2) : ℚ := v.x * w.x + v.y * w.y

/-- Embeds `Vec2f::cross`. -/
def Vec2.cross (v w : Vec2) : ℚ := v.x * w.y - v.y * w.x

/-- Embeds `Vec2f::rotate(sin, cos)`. -/
def Vec2.rotate (v : Vec2) (s c : ℚ) : Vec2 := ⟨v.x * c - v.y * s, v.x * s + v.y * c⟩

/-- Embeds `Vec2f::magnitude_sq`. -/
def Vec2.magnitude_sq (v : Vec2) : ℚ := v.x * v.x + v.y * v.y

/-- Embeds `maths::geometry::Segment`. -/
structure Seg where
  a : Vec2
  b : Vec2
deriving DecidableEq, Repr

/-- Embeds `maths::geometry::AABB` (only `min`/`max` corners are needed here). -/
structure AABB where
  lo : Vec2
  hi : Vec2
deriving DecidableEq, Repr

/-- Embeds `Segment::intersects`. -/
def Seg.intersects (s other : Seg) : Bool :=
  let edge_1 := s.b.sub s.a
  let edge_2 := other.b.sub other.a
  let cross := edge_1.cross edge_2
  if cross = 0 then false
  else
    let start := other.a.sub s.a
    let denom := 1 / cross
    let t := start.cross edge_2 * denom
    let u := start.cross edge_1 * denom
    decide (0 ≤ t ∧ t ≤ 1 ∧ 0 ≤ u ∧ u ≤ 1)

/-- Embeds `maths::geometry::Polygon`. -/
structure Poly where
  vertices : List Vec2

/-- Embeds `polygon.rs` private constant `INFINITY = 1e30`. -/
def POLY_INFINITY : ℚ := 10 ^ 30

/-- The exact value of `f32::MAX`. -/
def F32_MAX : ℚ := 2 ^ 128 - 2 ^ 104

/-- The list of edges `(v[i], v[(i+1) % n])` used by the `Polygon` loops. -/
def Poly.edges (p : Poly) : List Seg :=
  (List.range p.vertices.length).map fun i =>
    ⟨p.vertices.getD i ⟨0, 0⟩, p.vertices.getD ((i + 1) % p.vertices.length) ⟨0, 0⟩⟩

/-- Embeds `Polygon::contains_point` (ray casting towards `x = 1e30`). -/
def Poly.contains_point (p : Poly) (point : Vec2) : Bool :=
  let ray : Seg := ⟨point, ⟨POLY_INFINITY, point.y⟩⟩
  (p.edges.foldl (fun inside e => if e.intersects ray then !inside else inside) false)

/-- Embeds `Polygon::intersects_ray`. -/
def Poly.intersects_ray (p : Poly) (ray : Seg) : Bool :=
  p.edges.any fun e => e.intersects ray

/-- Embeds `Polygon::extents` (folding from `f32::MAX` / `f32::MIN`). -/
def Poly.extents (p : Poly) : AABB :=
  let lo := p.vertices.foldl (fun m v => ⟨min m.x v.x, min m.y v.y⟩)
    (⟨F32_MAX, F32_MAX⟩ : Vec2)
  let hi := p.vertices.foldl (fun m v => ⟨max m.x v.x, max m.y v.y⟩)
    (⟨-F32_MAX, -F32_MAX⟩ : Vec2)
  ⟨lo, hi⟩

/-- Embeds `Segment::overlaps_polygon`. -/
def Seg.overlaps_polygon (s : Seg) (polygon : Poly) : Bool :=
  let bounds := polygon.extents
  if s.a.x < bounds.lo.x ∧ s.b.x < bounds.lo.x then false
  else if s.a.x > bounds.hi.x ∧ s.b.x > bounds.hi.x then false
  else if s.a.y < bounds.lo.y ∧ s.b.y < bounds.lo.y then false
  else if s.a.y > bounds.hi.y ∧ s.b.y > bounds.hi.y then false
  else if polygon.intersects_ray s then true
  else if polygon.contains_point s.a ∨ polygon.contains_point s.b then true
  else false

/-- Embeds `util.rs::view_frustum`, parametrised by `tan(h_fov/2)` (the source
computes the tangent with `f32` trigonometry; the embedding takes it as an
input). -/
def view_frustum (tanHalf : ℚ) : Poly :=
  let opp_far := FAR * tanHalf
  let opp_near := NEAR * tanHalf
  ⟨[⟨-opp_far, FAR⟩, ⟨opp_far, FAR⟩, ⟨opp_near, NEAR⟩, ⟨-opp_near, NEAR⟩]⟩

/-! ### renderer/renderer.rs: camera and projection state -/

/-- Embeds `camera.rs::Camera` (the fields the renderer reads). -/
structure Camera where
  position : Vec2
  z : ℚ
  yaw_sin : ℚ
  yaw_cos : ℚ
  pitch_tan : ℚ
deriving DecidableEq, Repr

/-- Embeds `renderer.rs::RendererState` (the fields the rasterizers read).  The
focal lengths are carried as exact values; the source derives them from the
field of view with `f32` trigonometry. -/
structure RState where
  camera : Camera
  frustum : Poly
  focal_width : ℚ
  focal_height : ℚ
  inv_focal_width : ℚ
  pitch_shear : ℚ
  width : ℕ
  height : ℕ

def RState.half_width (st : RState) : ℚ := (st.width : ℚ) / 2

def RState.half_height (st : RState) : ℚ := (st.height : ℚ) / 2

/-- Embeds `RendererState::transform_view`. -/
def RState.transform_view (st : RState) (point : Vec2) : Vec2 :=
  (point.sub st.camera.position).rotate st.camera.yaw_sin st.camera.yaw_cos

/-- Embeds `RendererState::project_screen_space`; returns the screen-space point and
`inv_z`. -/
def RState.project_screen_space (st : RState) (point : Vec2) (height_offset : ℚ) :
    Vec2 × ℚ :=
  let z := point.y
  let inv_z := 1 / z
  let y := st.camera.z - height_offset
  let screen_space_x := point.x * st.focal_width * inv_z + st.half_width
  let screen_space_y := y * st.focal_height * inv_z + st.pitch_shear + st.half_height
  (⟨screen_space_x, screen_space_y⟩, inv_z)

/-! ### textures.rs: the sampling interface used by the rasterizers -/

/-- Embeds `textures.rs::MipLevel` descriptor. -/
structure MipLevel where
  width : ℕ
  height : ℕ
  offset : ℕ
deriving DecidableEq, Repr

/-- A texture as the rasterizers see it: per-level dimensions plus the
`sample_unchecked(x, y, level)` function. -/
structure Texture where
  levels : ℕ → MipLevel
  sample : ℕ → ℕ → ℕ → BGRA8

/-! ### renderer/wall.rs -/

/-- Embeds `wall.rs::WallInterpolator` (state of the per-column interpolators). -/
structure WallInterpolator where
  inv_depth : ℚ
  top_y : ℚ
  bottom_y : ℚ
  u_depth : ℚ
  inv_depth_m : ℚ
  top_y_m : ℚ
  bottom_y_m : ℚ
  u_depth_m : ℚ
  v_start : ℚ
  v_delta : ℚ
  v : ℚ
  v_m : ℚ
deriving DecidableEq, Repr

namespace WallInterpolator

/-- The branch condition of `WallInterpolator::new` (wall.rs:554): the
constructor computes its start values relative to endpoint `a` exactly when
`inv_depth_a < inv_depth_b`; otherwise relative to endpoint `b`. -/
def anchorsAtA (inv_depth_a inv_depth_b : ℚ) : Bool := inv_depth_a < inv_depth_b

/-- Embeds `WallInterpolator::new`. -/
def new (top_a top_b bottom_a bottom_b tex_coord_a tex_coord_b : Vec2)
    (inv_depth_a inv_depth_b x_min inv_x_delta : ℚ) : WallInterpolator :=
  let u_depth_a := tex_coord_a.x * inv_depth_a
  let u_depth_b := tex_coord_b.x * inv_depth_b
  let inv_depth_m := (inv_depth_b - inv_depth_a) * inv_x_delta
  let top_y_m := (top_b.y - top_a.y) * inv_x_delta
  let bottom_y_m := (bottom_b.y - bottom_a.y) * inv_x_delta
  let u_depth_m := (u_depth_b - u_depth_a) * inv_x_delta
  if anchorsAtA inv_depth_a inv_depth_b then
    let x_clamp_offset := x_min - top_a.x
    { inv_depth := inv_depth_a + inv_depth_m * x_clamp_offset
      top_y := top_a.y + top_y_m * x_clamp_offset
      bottom_y := bottom_a.y + bottom_y_m * x_clamp_offset
      u_depth := u_depth_a + u_depth_m * x_clamp_offset
      inv_depth_m := inv_depth_m, top_y_m := top_y_m
      bottom_y_m := bottom_y_m, u_depth_m := u_depth_m
      v_start := tex_coord_a.y, v_delta := tex_coord_b.y - tex_coord_a.y
      v := 0, v_m := 0 }
  else
    let x_clamp_offset := top_b.x - x_min
    { inv_depth := inv_depth_b - inv_depth_m * x_clamp_offset
      top_y := top_b.y - top_y_m * x_clamp_offset
      bottom_y := bottom_b.y - bottom_y_m * x_clamp_offset
      u_depth := u_depth_b - u_depth_m * x_clamp_offset
      inv_depth_m := inv_depth_m, top_y_m := top_y_m
      bottom_y_m := bottom_y_m, u_depth_m := u_depth_m
      v_start := tex_coord_a.y, v_delta := tex_coord_b.y - tex_coord_a.y
      v := 0, v_m := 0 }

/-- Embeds `WallInterpolator::init_y`. -/
def init_y (w : WallInterpolator) (y_min : ℕ) : WallInterpolator :=
  let y_clamp_offset := (y_min : ℚ) - w.top_y
  let v_m := w.v_delta / (w.bottom_y - w.top_y)
  { w with v_m := v_m, v := w.v_start + v_m * y_clamp_offset }

/-- Embeds `WallInterpolator::step_x`. -/
def step_x (w : WallInterpolator) : WallInterpolator :=
  { w with
    inv_depth := w.inv_depth + w.inv_depth_m
    top_y := w.top_y + w.top_y_m
    bottom_y := w.bottom_y + w.bottom_y_m
    u_depth := w.u_depth + w.u_depth_m }

/-- Embeds `WallInterpolator::step_y`. -/
def step_y (w : WallInterpolator) : WallInterpolator :=
  { w with v := w.v + w.v_m }

end WallInterpolator

/-- One framebuffer write `set_pixel_unchecked(x, y, colour)`. -/
structure Write where
  x : ℕ
  y : ℕ
  colour : BGRA8
deriving DecidableEq, Repr

/-- Pointwise update of a column buffer (`buf[x] = v`). -/
def updCol (f : ℕ → ℕ) (x v : ℕ) : ℕ → ℕ := fun i => if i = x then v else f i

/-- The inner `for y in y_min..y_max` loop of `rasterise_wall_span`,
recursing on the remaining row count; `v` steps by `v_m` after each write. -/
def wallSpanRows (t : Texture) (ml : ℕ) (ms : ℚ) (hmask tx light x : ℕ) :
    ℚ → ℚ → ℕ → ℕ → List Write
  | _, _, _, 0 => []
  | v, v_m, y, count + 1 =>
    let texture_y := ratToNat (v * ms) &&& hmask
    let colour := (t.sample tx texture_y ml).darken light
    ⟨x, y, colour⟩ :: wallSpanRows t ml ms hmask tx light x (v + v_m) v_m (y + 1) count

/-- Embeds `WallRenderer::rasterise_wall_span`: mip selection, per-column `u`
recovery, then the row loop over `[y_min, y_max)`. -/
def rasterise_wall_span (w : WallInterpolator) (lighting : ℚ) (t : Texture)
    (x y_min y_max : ℕ) : List Write :=
  let w := w.init_y y_min
  let depth := 1 / w.inv_depth
  let normal_depth := normalise_depth depth
  let ml := mip_level normal_depth 0
  let ms := MIP_SCALES.getD ml 0
  let light := ratToNat (diminish_lighting normal_depth * lighting * 255)
  let u := w.u_depth * depth
  let width_mask := (t.levels ml).width - 1
  let height_mask := (t.levels ml).height - 1
  let texture_x := ratToNat (u * ms) &&& width_mask
  wallSpanRows t ml ms height_mask texture_x light x w.v w.v_m y_min (y_max - y_min)

/-- State threaded through the wall rasterisation loops: the
`wall_bounds_min`/`wall_bounds_max` buffers of `WallRenderer` and, for
portal walls, the child clip-bound row pair being written at depth `d+1`. -/
structure RasterBuffers where
  wallMin : ℕ → ℕ
  wallMax : ℕ → ℕ
  childMin : ℕ → ℕ
  childMax : ℕ → ℕ

/-- The clamped y-interval of one solid-wall column
(`rasterise_wall`, wall.rs:364-369). -/
def solidColumn (top bot minb maxb : ℕ) : ℕ × ℕ :=
  (usizeClamp top minb maxb, usizeClamp bot minb maxb)

/-- The buffer update of one `rasterise_wall` column:
`wall_bounds_min[x] = y_min`, `wall_bounds_max[x] = y_max`. -/
def solidBufsUpd (minb maxb : ℕ → ℕ) (w : WallInterpolator) (x : ℕ)
    (bufs : RasterBuffers) : RasterBuffers :=
  let r := solidColumn (ratToNat w.top_y) (ratToNat w.bottom_y) (minb x) (maxb x)
  { bufs with wallMin := updCol bufs.wallMin x r.1, wallMax := updCol bufs.wallMax x r.2 }

/-- The column loop of `WallRenderer::rasterise_wall` over
`x_min..x_min+count`, reading the clip bounds `(minb, maxb)` of the current
portal depth; returns the updated buffers and all framebuffer writes. -/
def rasteriseWallCols (minb maxb : ℕ → ℕ) (lighting : ℚ) (t : Texture) :
    WallInterpolator → ℕ → ℕ → RasterBuffers → RasterBuffers × List Write
  | _, _, 0, bufs => (bufs, [])
  | w, x, count + 1, bufs =>
    let r := solidColumn (ratToNat w.top_y) (ratToNat w.bottom_y) (minb x) (maxb x)
    let ws := rasterise_wall_span w lighting t x r.1 r.2
    let rest := rasteriseWallCols minb maxb lighting t w.step_x (x + 1) count
      (solidBufsUpd minb maxb w x bufs)
    (rest.1, ws ++ rest.2)

/-- The per-column clamping of `WallRenderer::rasterise_portal_wall`
(wall.rs:405-419): the upper/lower band y-intervals after the bias rules. -/
def portalColumn (utop ubot ltop lbot minb maxb : ℕ) : ℕ × ℕ × ℕ × ℕ :=
  let upper_y_min := usizeClamp utop minb maxb
  let upper_y_max := usizeClamp ubot minb maxb
  let upper_y_max := max upper_y_max upper_y_min
  let lower_y_max := usizeClamp lbot minb maxb
  let lower_y_min := usizeClamp ltop minb maxb
  let lower_y_min := min lower_y_min lower_y_max
  let lower_y_max := max lower_y_max upper_y_max
  let lower_y_min := max lower_y_min upper_y_max
  (upper_y_min, upper_y_max, lower_y_min, lower_y_max)

/-- The buffer update of one `rasterise_portal_wall` column:
`wall_bounds_min[x] = upper_y_min`, `wall_bounds_max[x] = lower_y_max`,
`write_y_bounds.0[x] = upper_y_max`, `write_y_bounds.1[x] = lower_y_min`. -/
def portalBufsUpd (minb maxb : ℕ → ℕ) (uw lw : WallInterpolator) (x : ℕ)
    (bufs : RasterBuffers) : RasterBuffers :=
  let r := portalColumn (ratToNat uw.top_y) (ratToNat uw.bottom_y)
    (ratToNat lw.top_y) (ratToNat lw.bottom_y) (minb x) (maxb x)
  { wallMin := updCol bufs.wallMin x r.1
    wallMax := updCol bufs.wallMax x r.2.2.2
    childMin := updCol bufs.childMin x r.2.1
    childMax := updCol bufs.childMax x r.2.2.1 }

/-- The column loop of `WallRenderer::rasterise_portal_wall`: rasterises the
upper and lower bands, records wall bounds, and writes the child clip bounds
`write_y_bounds.0[x] = upper_y_max`, `write_y_bounds.1[x] = lower_y_min`. -/
def rasterisePortalCols (minb maxb : ℕ → ℕ) (lighting : ℚ) (ut lt : Texture) :
    WallInterpolator → WallInterpolator → ℕ → ℕ → RasterBuffers → RasterBuffers × List Write
  | _, _, _, 0, bufs => (bufs, [])
  | uw, lw, x, count + 1, bufs =>
    let r := portalColumn (ratToNat uw.top_y) (ratToNat uw.bottom_y)
      (ratToNat lw.top_y) (ratToNat lw.bottom_y) (minb x) (maxb x)
    let uws := rasterise_wall_span uw lighting ut x r.1 r.2.1
    let lws := rasterise_wall_span lw lighting lt x r.2.2.1 r.2.2.2
    let rest := rasterisePortalCols minb maxb lighting ut lt uw.step_x lw.step_x (x + 1) count
      (portalBufsUpd minb maxb uw lw x bufs)
    (rest.1, uws ++ lws ++ rest.2)

/-! ### Lemmas about the wall rasterisation loops -/

theorem wallSpanRows_mem (t : Texture) (ml : ℕ) (ms : ℚ) (hmask tx light x : ℕ)
    (v v_m : ℚ) (y count : ℕ) :
    ∀ wr ∈ wallSpanRows t ml ms hmask tx light x v v_m y count,
      wr.x = x ∧ y ≤ wr.y ∧ wr.y < y + count ∧
        ∃ ty, wr.colour = (t.sample tx ty ml).darken light := by
  induction count generalizing v y with
  | zero => intro wr h; simp [wallSpanRows] at h
  | succ n ih =>
    intro wr h
    rw [wallSpanRows] at h
    rcases List.mem_cons.mp h with h | h
    · subst h
      exact ⟨rfl, le_refl _, by show y < y + (n + 1); omega, ⟨_, rfl⟩⟩
    · obtain ⟨hx, hy1, hy2, hc⟩ := ih (v + v_m) (y + 1) wr h
      exact ⟨hx, by omega, by omega, hc⟩

theorem rasterise_wall_span_mem (w : WallInterpolator) (lighting : ℚ) (t : Texture)
    (x y_min y_max : ℕ) :
    ∀ wr ∈ rasterise_wall_span w lighting t x y_min y_max,
      wr.x = x ∧ y_min ≤ wr.y ∧ wr.y < y_max ∧
        ∃ tx ty ml light, wr.colour = (t.sample tx ty ml).darken light := by
  intro wr h
  rw [rasterise_wall_span] at h
  obtain ⟨hx, hy1, hy2, ty, hc⟩ := wallSpanRows_mem _ _ _ _ _ _ _ _ _ _ _ wr h
  exact ⟨hx, hy1, by omega, ⟨_, ty, _, _, hc⟩⟩

/-- All the interval facts about one column of `rasterise_portal_wall`:
writing `(uymin, uymax, lymin, lymax)` for the result, every value lies in
`[minb, maxb]`, the two bands are ordered, the child clip bounds
`uymax ≤ lymin` are nested inside the parent's, and the recorded wall
bounds `uymin ≤ lymax` are as well. -/
theorem portalColumn_spec (utop ubot ltop lbot minb maxb : ℕ) (h : minb ≤ maxb) :
    let r := portalColumn utop ubot ltop lbot minb maxb
    minb ≤ r.1 ∧ r.1 ≤ r.2.1 ∧ minb ≤ r.2.1 ∧ r.2.1 ≤ maxb ∧
      minb ≤ r.2.2.1 ∧ r.2.2.1 ≤ r.2.2.2 ∧ r.2.2.2 ≤ maxb ∧
      r.2.1 ≤ r.2.2.1 ∧ r.1 ≤ maxb := by
  have h1 := usizeClamp_ge_left utop minb maxb h
  have h2 := usizeClamp_le_right utop minb maxb h
  have h3 := usizeClamp_ge_left ubot minb maxb h
  have h4 := usizeClamp_le_right ubot minb maxb h
  have h5 := usizeClamp_ge_left ltop minb maxb h
  have h6 := usizeClamp_le_right ltop minb maxb h
  have h7 := usizeClamp_ge_left lbot minb maxb h
  have h8 := usizeClamp_le_right lbot minb maxb h
  simp only [portalColumn]
  omega

/-- Columns outside the processed range are untouched by
`rasteriseWallCols`. -/
theorem rasteriseWallCols_frame (minb maxb : ℕ → ℕ) (lighting : ℚ) (t : Texture)
    (w : WallInterpolator) (x0 count : ℕ) (bufs : RasterBuffers) (i : ℕ)
    (hout : i < x0 ∨ x0 + count ≤ i) :
    ((rasteriseWallCols minb maxb lighting t w x0 count bufs).1.wallMin i
        = bufs.wallMin i) ∧
      ((rasteriseWallCols minb maxb lighting t w x0 count bufs).1.wallMax i
        = bufs.wallMax i) ∧
      ((rasteriseWallCols minb maxb lighting t w x0 count bufs).1.childMin i
        = bufs.childMin i) ∧
      ((rasteriseWallCols minb maxb lighting t w x0 count bufs).1.childMax i
        = bufs.childMax i) := by
  induction count generalizing w x0 bufs with
  | zero => simp [rasteriseWallCols]
  | succ n ih =>
    have h1 := fun b2 => (ih w.step_x (x0 + 1) b2 (by omega)).1
    have h2 := fun b2 => (ih w.step_x (x0 + 1) b2 (by omega)).2.1
    have h3 := fun b2 => (ih w.step_x (x0 + 1) b2 (by omega)).2.2.1
    have h4 := fun b2 => (ih w.step_x (x0 + 1) b2 (by omega)).2.2.2
    have hne : i ≠ x0 := by omega
    rw [rasteriseWallCols]
    refine ⟨?_, ?_, ?_, ?_⟩ <;> simp [h1, h2, h3, h4, solidBufsUpd, updCol, hne]

/-- Columns outside the processed range are untouched by
`rasterisePortalCols`. -/
theorem rasterisePortalCols_frame (minb maxb : ℕ → ℕ) (lighting : ℚ) (ut lt : Texture)
    (uw lw : WallInterpolator) (x0 count : ℕ) (bufs : RasterBuffers) (i : ℕ)
    (hout : i < x0 ∨ x0 + count ≤ i) :
    ((rasterisePortalCols minb maxb lighting ut lt uw lw x0 count bufs).1.wallMin i
        = bufs.wallMin i) ∧
      ((rasterisePortalCols minb maxb lighting ut lt uw lw x0 count bufs).1.wallMax i
        = bufs.wallMax i) ∧
      ((rasterisePortalCols minb maxb lighting ut lt uw lw x0 count bufs).1.childMin i
        = bufs.childMin i) ∧
      ((rasterisePortalCols minb maxb lighting ut lt uw lw x0 count bufs).1.childMax i
        = bufs.childMax i) := by
  induction count generalizing uw lw x0 bufs with
  | zero => simp [rasterisePortalCols]
  | succ n ih =>
    have h1 := fun b2 => (ih uw.step_x lw.step_x (x0 + 1) b2 (by omega)).1
    have h2 := fun b2 => (ih uw.step_x lw.step_x (x0 + 1) b2 (by omega)).2.1
    have h3 := fun b2 => (ih uw.step_x lw.step_x (x0 + 1) b2 (by omega)).2.2.1
    have h4 := fun b2 => (ih uw.step_x lw.step_x (x0 + 1) b2 (by omega)).2.2.2
    have hne : i ≠ x0 := by omega
    rw [rasterisePortalCols]
    refine ⟨?_, ?_, ?_, ?_⟩ <;> simp [h1, h2, h3, h4, portalBufsUpd, updCol, hne]

/-- Every write of the solid-wall column loop lands in its own column's
parent clip interval. -/
theorem rasteriseWallCols_writes (minb maxb : ℕ → ℕ) (lighting : ℚ) (t : Texture)
    (w : WallInterpolator) (x0 count : ℕ) (bufs : RasterBuffers)
    (hwf : ∀ i, minb i ≤ maxb i) :
    ∀ wr ∈ (rasteriseWallCols minb maxb lighting t w x0 count bufs).2,
      x0 ≤ wr.x ∧ wr.x < x0 + count ∧ minb wr.x ≤ wr.y ∧ wr.y < maxb wr.x ∧
        ∃ tx ty ml light, wr.colour = (t.sample tx ty ml).darken light := by
  induction count generalizing w x0 bufs with
  | zero => intro wr h; simp [rasteriseWallCols] at h
  | succ n ih =>
    intro wr h
    rw [rasteriseWallCols] at h
    simp only [List.mem_append] at h
    rcases h with h | h
    · obtain ⟨hx, hy1, hy2, hc⟩ := rasterise_wall_span_mem _ _ _ _ _ _ wr h
      subst hx
      refine ⟨le_refl _, by omega, ?_, ?_, hc⟩
      · exact le_trans (usizeClamp_ge_left _ _ _ (hwf _)) hy1
      · exact lt_of_lt_of_le hy2 (usizeClamp_le_right _ _ _ (hwf _))
    · obtain ⟨hx1, hx2, hrest⟩ := ih w.step_x (x0 + 1) _ wr h
      exact ⟨by omega, by omega, hrest⟩

/-- Every write of the portal-wall column loop (upper or lower band) lands
in its own column's parent clip interval. -/
theorem rasterisePortalCols_writes (minb maxb : ℕ → ℕ) (lighting : ℚ) (ut lt : Texture)
    (uw lw : WallInterpolator) (x0 count : ℕ) (bufs : RasterBuffers)
    (hwf : ∀ i, minb i ≤ maxb i) :
    ∀ wr ∈ (rasterisePortalCols minb maxb lighting ut lt uw lw x0 count bufs).2,
      x0 ≤ wr.x ∧ wr.x < x0 + count ∧ minb wr.x ≤ wr.y ∧ wr.y < maxb wr.x ∧
        ∃ tx ty ml light, wr.colour = (Texture.sample ut tx ty ml).darken light ∨
          wr.colour = (Texture.sample lt tx ty ml).darken light := by
  induction count generalizing uw lw x0 bufs with
  | zero => intro wr h; simp [rasterisePortalCols] at h
  | succ n ih =>
    intro wr h
    rw [rasterisePortalCols] at h
    simp only [List.mem_append] at h
    have hspec := portalColumn_spec (ratToNat uw.top_y) (ratToNat uw.bottom_y)
      (ratToNat lw.top_y) (ratToNat lw.bottom_y) (minb x0) (maxb x0) (hwf x0)
    rcases h with (h | h) | h
    · obtain ⟨hx, hy1, hy2, tx, ty, ml, light, hc⟩ :=
        rasterise_wall_span_mem _ _ _ _ _ _ wr h
      subst hx
      exact ⟨le_refl _, by omega, by omega, by omega, ⟨tx, ty, ml, light, Or.inl hc⟩⟩
    · obtain ⟨hx, hy1, hy2, tx, ty, ml, light, hc⟩ :=
        rasterise_wall_span_mem _ _ _ _ _ _ wr h
      subst hx
      exact ⟨le_refl _, by omega, by omega, by omega, ⟨tx, ty, ml, light, Or.inr hc⟩⟩
    · obtain ⟨hx1, hx2, hrest⟩ := ih uw.step_x lw.step_x (x0 + 1) _ wr h
      exact ⟨by omega, by omega, hrest⟩

/-- After the portal column loop, every processed column carries the child
clip bounds produced by `portalColumn` at that column, which are nested in
the parent interval. -/
theorem rasterisePortalCols_child_bounds (minb maxb : ℕ → ℕ) (lighting : ℚ)
    (ut lt : Texture) (uw lw : WallInterpolator) (x0 count : ℕ) (bufs : RasterBuffers)
    (hwf : ∀ i, minb i ≤ maxb i) :
    ∀ x, x0 ≤ x → x < x0 + count →
      minb x ≤ (rasterisePortalCols minb maxb lighting ut lt uw lw x0 count bufs).1.childMin x ∧
        (rasterisePortalCols minb maxb lighting ut lt uw lw x0 count bufs).1.childMin x ≤
          (rasterisePortalCols minb maxb lighting ut lt uw lw x0 count bufs).1.childMax x ∧
        (rasterisePortalCols minb maxb lighting ut lt uw lw x0 count bufs).1.childMax x ≤ maxb x := by
  induction count generalizing uw lw x0 bufs with
  | zero => intro x h1 h2; omega
  | succ n ih =>
    intro x h1 h2
    have heq : (rasterisePortalCols minb maxb lighting ut lt uw lw x0 (n + 1) bufs).1 =
        (rasterisePortalCols minb maxb lighting ut lt uw.step_x lw.step_x (x0 + 1) n
          (portalBufsUpd minb maxb uw lw x0 bufs)).1 := rfl
    rw [heq]
    by_cases hx : x = x0
    · subst hx
      have hframe := rasterisePortalCols_frame minb maxb lighting ut lt
        uw.step_x lw.step_x (x + 1) n (portalBufsUpd minb maxb uw lw x bufs) x (by omega)
      rw [hframe.2.2.1, hframe.2.2.2]
      have hspec := portalColumn_spec (ratToNat uw.top_y) (ratToNat uw.bottom_y)
        (ratToNat lw.top_y) (ratToNat lw.bottom_y) (minb x) (maxb x) (hwf x)
      simp [portalBufsUpd, updCol]
      omega
    · exact ih uw.step_x lw.step_x (x0 + 1) (portalBufsUpd minb maxb uw lw x0 bufs) x
        (by omega) (by omega)

theorem pixel_index_lt {x y W H : ℕ} (hy : y < H) (hx : x < W) : y * W + x < W * H := by
  calc y * W + x < y * W + W := by omega
    _ = (y + 1) * W := by ring
    _ ≤ H * W := Nat.mul_le_mul_right W hy
    _ = W * H := Nat.mul_comm H W

/-! ### Concrete data used by the witnesses -/

/-- A constant opaque texture. -/
def texOpaque : Texture := ⟨fun _ => ⟨16, 16, 0⟩, fun _ _ _ => ⟨10, 20, 30, 255⟩⟩

/-- A concrete upper-band interpolator state. -/
def uwWit : WallInterpolator := ⟨1 / 8, 50, 80, 0, 0, 0, 0, 0, 0, 30, 0, 0⟩

/-- A concrete lower-band interpolator state. -/
def lwWit : WallInterpolator := ⟨1 / 8, 120, 200, 0, 0, 0, 0, 0, 0, 80, 0, 0⟩

/-- Fresh rasteriser buffers (all columns zero). -/
def bufsWit : RasterBuffers := ⟨fun _ => 0, fun _ => 0, fun _ => 0, fun _ => 0⟩

/-! ### C1 -/

/-- C1: whenever `rasterise_portal_wall` creates a child portal window at
depth `d+1` from a parent at depth `d`, then for every column `x` of the
child's clamped range the bounds written at depth `d+1` (`childMin`,
`childMax`) are nested inside the parent's (`minb`, `maxb`):
`portal_min[d][x] ≤ portal_min[d+1][x] ≤ portal_max[d+1][x] ≤ portal_max[d][x]`,
provided the parent's interval is well-formed (`minb ≤ maxb`, which holds at
depth 0 by initialisation and is propagated to every deeper level by this
very statement). -/
theorem C1_child_clip_bounds_nested (minb maxb : ℕ → ℕ) (lighting : ℚ)
    (ut lt : Texture) (uw lw : WallInterpolator) (x_min x_max : ℕ)
    (bufs : RasterBuffers) (hwf : ∀ i, minb i ≤ maxb i) :
    ∀ x, x_min ≤ x → x < x_max →
      minb x ≤ (rasterisePortalCols minb maxb lighting ut lt uw lw x_min
          (x_max - x_min) bufs).1.childMin x ∧
      (rasterisePortalCols minb maxb lighting ut lt uw lw x_min
          (x_max - x_min) bufs).1.childMin x ≤
        (rasterisePortalCols minb maxb lighting ut lt uw lw x_min
          (x_max - x_min) bufs).1.childMax x ∧
      (rasterisePortalCols minb maxb lighting ut lt uw lw x_min
          (x_max - x_min) bufs).1.childMax x ≤ maxb x := by
  intro x hx1 hx2
  exact rasterisePortalCols_child_bounds minb maxb lighting ut lt uw lw x_min
    (x_max - x_min) bufs hwf x hx1 (by omega)

/-- Witness for C1 at a concrete portal wall: parent bounds `[10, 300)` on
every column, child range `[5, 7)`, checked at column `5`. -/
theorem C1_child_clip_bounds_nested_witness :
    (∀ i : ℕ, (fun _ : ℕ => 10) i ≤ (fun _ : ℕ => 300) i) ∧
      ((fun _ : ℕ => 10) 5 ≤ (rasterisePortalCols (fun _ => 10) (fun _ => 300) 1
          texOpaque texOpaque uwWit lwWit 5 (7 - 5) bufsWit).1.childMin 5 ∧
        (rasterisePortalCols (fun _ => 10) (fun _ => 300) 1
          texOpaque texOpaque uwWit lwWit 5 (7 - 5) bufsWit).1.childMin 5 ≤
          (rasterisePortalCols (fun _ => 10) (fun _ => 300) 1
            texOpaque texOpaque uwWit lwWit 5 (7 - 5) bufsWit).1.childMax 5 ∧
        (rasterisePortalCols (fun _ => 10) (fun _ => 300) 1
          texOpaque texOpaque uwWit lwWit 5 (7 - 5) bufsWit).1.childMax 5 ≤
          (fun _ : ℕ => 300) 5) :=
  ⟨fun _ => by show (10 : ℕ) ≤ 300; decide,
    C1_child_clip_bounds_nested (fun _ => 10) (fun _ => 300) 1 texOpaque texOpaque
      uwWit lwWit 5 7 bufsWit (fun _ => by show (10 : ℕ) ≤ 300; decide) 5
      (by decide) (by decide)⟩

/-! ### C2 -/

/-- C2: every framebuffer write of the wall rasteriser — by a solid wall
(`rasterise_wall`) or by the upper/lower band of a portal wall
(`rasterise_portal_wall`) — at column `x` has its `y` inside the current
window's clip interval `[portal_min[d][x], portal_max[d][x])`; and since the
max bound never exceeds the screen height and the column range lies inside
the screen width, the index `y * width + x` of each unchecked write is
within the framebuffer's bounds. -/
theorem C2_wall_writes_in_bounds (minb maxb : ℕ → ℕ) (lighting : ℚ)
    (t ut lt : Texture) (w uw lw : WallInterpolator) (x_min count : ℕ)
    (bufs bufs2 : RasterBuffers) (W H : ℕ)
    (hwf : ∀ i, minb i ≤ maxb i) (hH : ∀ i, maxb i ≤ H) (hW : x_min + count ≤ W) :
    (∀ wr ∈ (rasteriseWallCols minb maxb lighting t w x_min count bufs).2,
        minb wr.x ≤ wr.y ∧ wr.y < maxb wr.x ∧ wr.y * W + wr.x < W * H) ∧
      (∀ wr ∈ (rasterisePortalCols minb maxb lighting ut lt uw lw x_min count bufs2).2,
        minb wr.x ≤ wr.y ∧ wr.y < maxb wr.x ∧ wr.y * W + wr.x < W * H) := by
  constructor
  · intro wr h
    obtain ⟨hx1, hx2, hy1, hy2, -⟩ :=
      rasteriseWallCols_writes minb maxb lighting t w x_min count bufs hwf wr h
    exact ⟨hy1, hy2, pixel_index_lt (lt_of_lt_of_le hy2 (hH _)) (by omega)⟩
  · intro wr h
    obtain ⟨hx1, hx2, hy1, hy2, -⟩ :=
      rasterisePortalCols_writes minb maxb lighting ut lt uw lw x_min count bufs2 hwf wr h
    exact ⟨hy1, hy2, pixel_index_lt (lt_of_lt_of_le hy2 (hH _)) (by omega)⟩

/-- Witness for C2 at a concrete solid wall and portal wall: bounds
`[10, 300)` on a `640 × 400` screen, columns `[5, 7)`. -/
theorem C2_wall_writes_in_bounds_witness :
    (∀ i : ℕ, (fun _ : ℕ => 10) i ≤ (fun _ : ℕ => 300) i) ∧
      (∀ i : ℕ, (fun _ : ℕ => 300) i ≤ 400) ∧ 5 + 2 ≤ 640 ∧
      ((∀ wr ∈ (rasteriseWallCols (fun _ => 10) (fun _ => 300) 1 texOpaque uwWit
            5 2 bufsWit).2,
          (fun _ : ℕ => 10) wr.x ≤ wr.y ∧ wr.y < (fun _ : ℕ => 300) wr.x ∧
            wr.y * 640 + wr.x < 640 * 400) ∧
        (∀ wr ∈ (rasterisePortalCols (fun _ => 10) (fun _ => 300) 1 texOpaque
            texOpaque uwWit lwWit 5 2 bufsWit).2,
          (fun _ : ℕ => 10) wr.x ≤ wr.y ∧ wr.y < (fun _ : ℕ => 300) wr.x ∧
            wr.y * 640 + wr.x < 640 * 400)) :=
  ⟨fun _ => by show (10 : ℕ) ≤ 300; decide, fun _ => by show (300 : ℕ) ≤ 400; decide,
    by decide,
    C2_wall_writes_in_bounds (fun _ => 10) (fun _ => 300) 1 texOpaque texOpaque
      texOpaque uwWit uwWit lwWit 5 2 bufsWit bufsWit 640 400
      (fun _ => by show (10 : ℕ) ≤ 300; decide)
      (fun _ => by show (300 : ℕ) ≤ 400; decide) (by decide)⟩

/-! ### Lemmas about the recorded wall bounds, and the sector-level wall loop -/

/-- After the solid-wall column loop, every processed column's recorded wall
bounds are an ordered interval inside the parent clip interval (ordering
needs the per-column projected top to lie above the bottom, which holds when
the sector's ceiling is above its floor). -/
theorem rasteriseWallCols_wall_bounds (minb maxb : ℕ → ℕ) (lighting : ℚ)
    (t : Texture) (w : WallInterpolator) (x0 count : ℕ) (bufs : RasterBuffers)
    (hwf : ∀ i, minb i ≤ maxb i)
    (hord : ∀ i < count, ratToNat ((WallInterpolator.step_x)^[i] w).top_y ≤
      ratToNat ((WallInterpolator.step_x)^[i] w).bottom_y) :
    ∀ x, x0 ≤ x → x < x0 + count →
      minb x ≤ (rasteriseWallCols minb maxb lighting t w x0 count bufs).1.wallMin x ∧
        (rasteriseWallCols minb maxb lighting t w x0 count bufs).1.wallMin x ≤
          (rasteriseWallCols minb maxb lighting t w x0 count bufs).1.wallMax x ∧
        (rasteriseWallCols minb maxb lighting t w x0 count bufs).1.wallMax x ≤ maxb x := by
  induction count generalizing w x0 bufs with
  | zero => intro x h1 h2; omega
  | succ n ih =>
    intro x h1 h2
    have heq : (rasteriseWallCols minb maxb lighting t w x0 (n + 1) bufs).1 =
        (rasteriseWallCols minb maxb lighting t w.step_x (x0 + 1) n
          (solidBufsUpd minb maxb w x0 bufs)).1 := rfl
    rw [heq]
    by_cases hx : x = x0
    · subst hx
      have hframe := rasteriseWallCols_frame minb maxb lighting t
        w.step_x (x + 1) n (solidBufsUpd minb maxb w x bufs) x (by omega)
      rw [hframe.1, hframe.2.1]
      have h0 := hord 0 (by omega)
      simp only [Function.iterate_zero, id] at h0
      have ha := usizeClamp_ge_left (ratToNat w.top_y) (minb x) (maxb x) (hwf x)
      have hb := usizeClamp_le_right (ratToNat w.bottom_y) (minb x) (maxb x) (hwf x)
      have hc := usizeClamp_mono (v := ratToNat w.top_y) (w := ratToNat w.bottom_y)
        (hwf x) h0
      simp [solidBufsUpd, solidColumn, updCol]
      omega
    · exact ih w.step_x (x0 + 1) (solidBufsUpd minb maxb w x0 bufs)
        (fun i hi => by
          have := hord (i + 1) (by omega)
          rwa [Function.iterate_succ_apply] at this)
        x (by omega) (by omega)

/-- After the portal-wall column loop, every processed column's recorded wall
bounds (`upper_y_min`, `lower_y_max`) are an ordered interval inside the
parent clip interval. -/
theorem rasterisePortalCols_wall_bounds (minb maxb : ℕ → ℕ) (lighting : ℚ)
    (ut lt : Texture) (uw lw : WallInterpolator) (x0 count : ℕ) (bufs : RasterBuffers)
    (hwf : ∀ i, minb i ≤ maxb i) :
    ∀ x, x0 ≤ x → x < x0 + count →
      minb x ≤ (rasterisePortalCols minb maxb lighting ut lt uw lw x0 count bufs).1.wallMin x ∧
        (rasterisePortalCols minb maxb lighting ut lt uw lw x0 count bufs).1.wallMin x ≤
          (rasterisePortalCols minb maxb lighting ut lt uw lw x0 count bufs).1.wallMax x ∧
        (rasterisePortalCols minb maxb lighting ut lt uw lw x0 count bufs).1.wallMax x ≤ maxb x := by
  induction count generalizing uw lw x0 bufs with
  | zero => intro x h1 h2; omega
  | succ n ih =>
    intro x h1 h2
    have heq : (rasterisePortalCols minb maxb lighting ut lt uw lw x0 (n + 1) bufs).1 =
        (rasterisePortalCols minb maxb lighting ut lt uw.step_x lw.step_x (x0 + 1) n
          (portalBufsUpd minb maxb uw lw x0 bufs)).1 := rfl
    rw [heq]
    by_cases hx : x = x0
    · subst hx
      have hframe := rasterisePortalCols_frame minb maxb lighting ut lt
        uw.step_x lw.step_x (x + 1) n (portalBufsUpd minb maxb uw lw x bufs) x (by omega)
      rw [hframe.1, hframe.2.1]
      have hspec := portalColumn_spec (ratToNat uw.top_y) (ratToNat uw.bottom_y)
        (ratToNat lw.top_y) (ratToNat lw.bottom_y) (minb x) (maxb x) (hwf x)
      simp [portalBufsUpd, updCol]
      omega
    · exact ih uw.step_x lw.step_x (x0 + 1) (portalBufsUpd minb maxb uw lw x0 bufs) x
        (by omega) (by omega)

/-- One wall of a sector, as seen by `WallRenderer::render` after clipping
and projection: either a solid wall or a portal wall, with the interpolator
states at its clamped starting column and the clamped column range. -/
inductive WallJob where
  | solid (w : WallInterpolator) (lighting : ℚ) (t : Texture) (x0 count : ℕ)
  | portal (uw lw : WallInterpolator) (lighting : ℚ) (ut lt : Texture) (x0 count : ℕ)

/-- The starting column of a job's clamped range. -/
def WallJob.x0 : WallJob → ℕ
  | .solid _ _ _ x0 _ => x0
  | .portal _ _ _ _ _ x0 _ => x0

/-- The width of a job's clamped range. -/
def WallJob.count : WallJob → ℕ
  | .solid _ _ _ _ c => c
  | .portal _ _ _ _ _ _ c => c

/-- For a solid wall, the projected top curve stays above the bottom curve
over the processed columns (after the integer cast); portal walls need no
such side condition. -/
def WallJob.ordered : WallJob → Prop
  | .solid w _ _ _ c => ∀ i < c, ratToNat ((WallInterpolator.step_x)^[i] w).top_y ≤
      ratToNat ((WallInterpolator.step_x)^[i] w).bottom_y
  | .portal _ _ _ _ _ _ _ => True

/-- Dispatch of `WallRenderer::render` to the solid or portal column loop. -/
def drawJob (minb maxb : ℕ → ℕ) (bufs : RasterBuffers) :
    WallJob → RasterBuffers × List Write
  | .solid w lighting t x0 c => rasteriseWallCols minb maxb lighting t w x0 c bufs
  | .portal uw lw lighting ut lt x0 c =>
    rasterisePortalCols minb maxb lighting ut lt uw lw x0 c bufs

/-- The wall loop of `SectorRenderer::draw_sector`: rasterise every wall of
the sector in declared order, threading the wall-bound buffers. -/
def drawSectorWalls (minb maxb : ℕ → ℕ) :
    List WallJob → RasterBuffers → RasterBuffers × List Write
  | [], bufs => (bufs, [])
  | j :: js, bufs =>
    let r := drawJob minb maxb bufs j
    let rest := drawSectorWalls minb maxb js r.1
    (rest.1, r.2 ++ rest.2)

/-- A job leaves columns outside its range untouched. -/
theorem drawJob_frame (minb maxb : ℕ → ℕ) (bufs : RasterBuffers) (j : WallJob)
    (x : ℕ) (hout : x < j.x0 ∨ j.x0 + j.count ≤ x) :
    ((drawJob minb maxb bufs j).1.wallMin x = bufs.wallMin x) ∧
      ((drawJob minb maxb bufs j).1.wallMax x = bufs.wallMax x) := by
  cases j with
  | solid w lighting t x0 c =>
    have h := rasteriseWallCols_frame minb maxb lighting t w x0 c bufs x
      (by simpa [WallJob.x0, WallJob.count] using hout)
    exact ⟨h.1, h.2.1⟩
  | portal uw lw lighting ut lt x0 c =>
    have h := rasterisePortalCols_frame minb maxb lighting ut lt uw lw x0 c bufs x
      (by simpa [WallJob.x0, WallJob.count] using hout)
    exact ⟨h.1, h.2.1⟩

/-- A job establishes well-bounded wall bounds on every column of its
range. -/
theorem drawJob_wall_bounds (minb maxb : ℕ → ℕ) (bufs : RasterBuffers) (j : WallJob)
    (hwf : ∀ i, minb i ≤ maxb i) (hord : j.ordered) (x : ℕ)
    (hin : j.x0 ≤ x ∧ x < j.x0 + j.count) :
    minb x ≤ (drawJob minb maxb bufs j).1.wallMin x ∧
      (drawJob minb maxb bufs j).1.wallMin x ≤ (drawJob minb maxb bufs j).1.wallMax x ∧
      (drawJob minb maxb bufs j).1.wallMax x ≤ maxb x := by
  cases j with
  | solid w lighting t x0 c =>
    exact rasteriseWallCols_wall_bounds minb maxb lighting t w x0 c bufs hwf hord x
      hin.1 hin.2
  | portal uw lw lighting ut lt x0 c =>
    exact rasterisePortalCols_wall_bounds minb maxb lighting ut lt uw lw x0 c bufs hwf x
      hin.1 hin.2

/-- Well-bounded wall bounds at a column are preserved by the rest of the
wall loop: each later wall either does not touch the column or re-establishes
the property. -/
theorem drawSectorWalls_preserves (minb maxb : ℕ → ℕ) (jobs : List WallJob)
    (bufs : RasterBuffers) (hwf : ∀ i, minb i ≤ maxb i)
    (hord : ∀ j ∈ jobs, j.ordered) (x : ℕ)
    (hP : minb x ≤ bufs.wallMin x ∧ bufs.wallMin x ≤ bufs.wallMax x ∧
      bufs.wallMax x ≤ maxb x) :
    minb x ≤ (drawSectorWalls minb maxb jobs bufs).1.wallMin x ∧
      (drawSectorWalls minb maxb jobs bufs).1.wallMin x ≤
        (drawSectorWalls minb maxb jobs bufs).1.wallMax x ∧
      (drawSectorWalls minb maxb jobs bufs).1.wallMax x ≤ maxb x := by
  induction jobs generalizing bufs with
  | nil => exact hP
  | cons j js ih =>
    by_cases hin : j.x0 ≤ x ∧ x < j.x0 + j.count
    · exact ih (drawJob minb maxb bufs j).1 (fun k hk => hord k (List.mem_cons_of_mem j hk))
        (drawJob_wall_bounds minb maxb bufs j hwf (hord j (List.mem_cons_self j js)) x hin)
    · have hframe := drawJob_frame minb maxb bufs j x (by omega)
      exact ih (drawJob minb maxb bufs j).1 (fun k hk => hord k (List.mem_cons_of_mem j hk))
        (by rw [hframe.1, hframe.2]; exact hP)

/-- If some wall of the list covers a column, the wall loop establishes
well-bounded wall bounds there, whatever the buffers held before. -/
theorem drawSectorWalls_establishes (minb maxb : ℕ → ℕ) (jobs : List WallJob)
    (bufs : RasterBuffers) (hwf : ∀ i, minb i ≤ maxb i)
    (hord : ∀ j ∈ jobs, j.ordered) (x : ℕ)
    (hcov : ∃ j ∈ jobs, j.x0 ≤ x ∧ x < j.x0 + j.count) :
    minb x ≤ (drawSectorWalls minb maxb jobs bufs).1.wallMin x ∧
      (drawSectorWalls minb maxb jobs bufs).1.wallMin x ≤
        (drawSectorWalls minb maxb jobs bufs).1.wallMax x ∧
      (drawSectorWalls minb maxb jobs bufs).1.wallMax x ≤ maxb x := by
  induction jobs generalizing bufs with
  | nil => obtain ⟨j, hj, -⟩ := hcov; exact absurd hj (List.not_mem_nil j)
  | cons j js ih =>
    by_cases hin : j.x0 ≤ x ∧ x < j.x0 + j.count
    · exact drawSectorWalls_preserves minb maxb js (drawJob minb maxb bufs j).1 hwf
        (fun k hk => hord k (List.mem_cons_of_mem j hk)) x
        (drawJob_wall_bounds minb maxb bufs j hwf (hord j (List.mem_cons_self j js)) x hin)
    · obtain ⟨k, hk, hkin⟩ := hcov
      rcases List.mem_cons.mp hk with rfl | hk
      · exact absurd hkin hin
      · exact ih (drawJob minb maxb bufs j).1
          (fun m hm => hord m (List.mem_cons_of_mem j hm)) ⟨k, hk, hkin⟩

/-! ### C3 -/

/-- C3: after all walls of the sector owning a portal window have been
drawn (`draw_sector`'s wall loop), every column `x` of the window for which
the wall loop overwrote the `wall_min`/`wall_max` buffers — which by the
coverage hypothesis `hcov` (the spec's mandate that the sector's walls
cover every column of the window) is every column of
`[portal.x_min, portal.x_max)` — satisfies
`portal_min[d][x] ≤ wall_min[x] ≤ wall_max[x] ≤ portal_max[d][x]`. -/
theorem C3_wall_bounds_within_portal_bounds (minb maxb : ℕ → ℕ)
    (jobs : List WallJob) (bufs : RasterBuffers) (wx0 wx1 : ℕ)
    (hwf : ∀ i, minb i ≤ maxb i) (hord : ∀ j ∈ jobs, j.ordered)
    (hcov : ∀ x, wx0 ≤ x → x < wx1 → ∃ j ∈ jobs, j.x0 ≤ x ∧ x < j.x0 + j.count) :
    ∀ x, wx0 ≤ x → x < wx1 →
      minb x ≤ (drawSectorWalls minb maxb jobs bufs).1.wallMin x ∧
        (drawSectorWalls minb maxb jobs bufs).1.wallMin x ≤
          (drawSectorWalls minb maxb jobs bufs).1.wallMax x ∧
        (drawSectorWalls minb maxb jobs bufs).1.wallMax x ≤ maxb x := by
  intro x h1 h2
  exact drawSectorWalls_establishes minb maxb jobs bufs hwf hord x (hcov x h1 h2)

/-- Witness for C3: a window `[5, 7)` covered by one solid wall and one
portal wall, parent bounds `[10, 300)`, checked at column `6`. -/
theorem C3_wall_bounds_within_portal_bounds_witness :
    (∀ i : ℕ, (fun _ : ℕ => 10) i ≤ (fun _ : ℕ => 300) i) ∧
      ((fun _ : ℕ => 10) 6 ≤ (drawSectorWalls (fun _ => 10) (fun _ => 300)
          [WallJob.solid uwWit 1 texOpaque 5 1, WallJob.portal uwWit lwWit 1 texOpaque texOpaque 6 1]
          bufsWit).1.wallMin 6 ∧
        (drawSectorWalls (fun _ => 10) (fun _ => 300)
          [WallJob.solid uwWit 1 texOpaque 5 1, WallJob.portal uwWit lwWit 1 texOpaque texOpaque 6 1]
          bufsWit).1.wallMin 6 ≤
          (drawSectorWalls (fun _ => 10) (fun _ => 300)
            [WallJob.solid uwWit 1 texOpaque 5 1, WallJob.portal uwWit lwWit 1 texOpaque texOpaque 6 1]
            bufsWit).1.wallMax 6 ∧
        (drawSectorWalls (fun _ => 10) (fun _ => 300)
          [WallJob.solid uwWit 1 texOpaque 5 1, WallJob.portal uwWit lwWit 1 texOpaque texOpaque 6 1]
          bufsWit).1.wallMax 6 ≤ (fun _ : ℕ => 300) 6) :=
  ⟨fun _ => by show (10 : ℕ) ≤ 300; decide,
    C3_wall_bounds_within_portal_bounds (fun _ => 10) (fun _ => 300)
      [WallJob.solid uwWit 1 texOpaque 5 1, WallJob.portal uwWit lwWit 1 texOpaque texOpaque 6 1]
      bufsWit 5 7 (fun _ => by show (10 : ℕ) ≤ 300; decide)
      (by
        intro j hj
        rcases List.mem_cons.mp hj with rfl | hj
        · intro i hi
          interval_cases i
          decide
        · rcases List.mem_cons.mp hj with rfl | hj
          · trivial
          · exact absurd hj (List.not_mem_nil j))
      (by
        intro x hx1 hx2
        by_cases hx : x = 5
        · exact ⟨WallJob.solid uwWit 1 texOpaque 5 1, by simp [WallJob.x0, WallJob.count]; omega⟩
        · exact ⟨WallJob.portal uwWit lwWit 1 texOpaque texOpaque 6 1,
            by simp [WallJob.x0, WallJob.count]; omega⟩)
      6 (by decide) (by decide)⟩

/-! ### renderer/plane.rs -/

/-- Embeds `maths::linear::Mat2f` (column-major `[c0x, c0y, c1x, c1y]`). -/
structure Mat2 where
  c0x : ℚ
  c0y : ℚ
  c1x : ℚ
  c1y : ℚ
deriving DecidableEq, Repr

/-- Embeds `Mat2f * Vec2f`: `out[i] = Σ_j m[j][i] * v[j]` over columns `j`. -/
def Mat2.mulVec (m : Mat2) (v : Vec2) : Vec2 :=
  ⟨m.c0x * v.x + m.c1x * v.y, m.c0y * v.x + m.c1y * v.y⟩

/-- The value `PlaneRenderer::update` stores in `focal_height_ratios[y]`:
`0` when the row offset from the (sheared) horizon is zero, otherwise
`focal_height / y_offset`. -/
def focal_height_ratio_at (st : RState) (y : ℕ) : ℚ :=
  let y_offset := (y : ℚ) - st.half_height - st.pitch_shear
  if y_offset = 0 then 0 else st.focal_height / y_offset

/-- The inner `for x in x_min..x_max` loop of `rasterise_plane_span`
(the source's colour call is `lightness`, which does not appear in the
sources; the nearest `colour.rs` operation, `lighten`, is used here — the
choice does not affect which pixels are written). -/
def planeSpanCols (t : Texture) (ml light y wmask hmask : ℕ) :
    ℚ → ℚ → ℚ → ℚ → ℕ → ℕ → List Write
  | _, _, _, _, _, 0 => []
  | u, v, u_m, v_m, x, count + 1 =>
    let texture_x := ratToNat u &&& wmask
    let texture_y := ratToNat v &&& hmask
    let colour := (t.sample texture_x texture_y ml).lighten light
    ⟨x, y, colour⟩ ::
      planeSpanCols t ml light y wmask hmask (u + u_m) (v + v_m) u_m v_m (x + 1) count

/-- Embeds `PlaneRenderer::rasterise_plane_span`: early return on an empty span,
depth reconstruction from the row's focal-height ratio, the `[NEAR, FAR]`
depth test, inverse projection of the span endpoints to world space,
texture transform, and the linear `u`/`v` column loop. -/
def rasterise_plane_span (st : RState) (t : Texture) (texture_offset : Vec2)
    (texture_scale_rotate : Mat2) (height_offset : ℚ) (y x_min x_max : ℕ) :
    List Write :=
  if x_max ≤ x_min then []
  else
    let focal_height_ratio := focal_height_ratio_at st y
    let depth := focal_height_ratio * height_offset
    if depth < NEAR ∨ depth > FAR then []
    else
      let normal_depth := normalise_depth depth
      let ml := mip_level normal_depth |focal_height_ratio|
      let ms := TexMIP_SCALES.getD ml 0
      let lighting := ratToNat (diminish_lighting normal_depth * 255)
      let ws_1 := (Vec2.rotate ⟨((x_min : ℚ) - st.half_width) * depth * st.inv_focal_width,
          -depth⟩ st.camera.yaw_sin st.camera.yaw_cos).add
        ⟨st.camera.position.x, -st.camera.position.y⟩
      let ws_2 := (Vec2.rotate ⟨((x_max : ℚ) - st.half_width) * depth * st.inv_focal_width,
          -depth⟩ st.camera.yaw_sin st.camera.yaw_cos).add
        ⟨st.camera.position.x, -st.camera.position.y⟩
      let tex_coord_a := texture_scale_rotate.mulVec ((ws_1.smul ms).add texture_offset)
      let tex_coord_b := texture_scale_rotate.mulVec ((ws_2.smul ms).add texture_offset)
      let inv_x_delta := 1 / ((x_max : ℚ) - (x_min : ℚ))
      let v_m := (tex_coord_b.y - tex_coord_a.y) * inv_x_delta
      let u_m := (tex_coord_b.x - tex_coord_a.x) * inv_x_delta
      let width_mask := (t.levels ml).width - 1
      let height_mask := (t.levels ml).height - 1
      planeSpanCols t ml lighting y width_mask height_mask
        tex_coord_a.x tex_coord_a.y u_m v_m x_min (x_max - x_min)

/-! ### C9 -/

/-- C9: a plane span at row `y` writes no framebuffer pixels whenever its
reconstructed depth `focal_height_ratios[y] * height_offset` falls below
`NEAR` or above `FAR`; in particular horizon rows, for which
`focal_height_ratios[y]` is set to exactly `0` by `PlaneRenderer::update`,
are always skipped. -/
theorem C9_plane_span_depth_skip (st : RState) (t : Texture) (texture_offset : Vec2)
    (texture_scale_rotate : Mat2) (height_offset : ℚ) (y x_min x_max : ℕ)
    (h : focal_height_ratio_at st y = 0 ∨
      focal_height_ratio_at st y * height_offset < NEAR ∨
      focal_height_ratio_at st y * height_offset > FAR) :
    rasterise_plane_span st t texture_offset texture_scale_rotate height_offset
      y x_min x_max = [] := by
  have hdepth : focal_height_ratio_at st y * height_offset < NEAR ∨
      focal_height_ratio_at st y * height_offset > FAR := by
    rcases h with h | h | h
    · left; rw [h, zero_mul]; norm_num [NEAR]
    · left; exact h
    · right; exact h
  unfold rasterise_plane_span
  split
  · rfl
  · rw [if_pos hdepth]

/-- Witness for C9 on a concrete horizon row: `640 × 400` screen, no pitch
shear, row `y = 200` has `focal_height_ratio = 0`, so the span is skipped. -/
theorem C9_plane_span_depth_skip_witness :
    (focal_height_ratio_at ⟨⟨⟨0, 0⟩, 10, 0, 1, 0⟩, view_frustum 1, 320, 320, 1 / 320, 0,
        640, 400⟩ 200 = 0 ∨
      focal_height_ratio_at ⟨⟨⟨0, 0⟩, 10, 0, 1, 0⟩, view_frustum 1, 320, 320, 1 / 320, 0,
        640, 400⟩ 200 * 10 < NEAR ∨
      focal_height_ratio_at ⟨⟨⟨0, 0⟩, 10, 0, 1, 0⟩, view_frustum 1, 320, 320, 1 / 320, 0,
        640, 400⟩ 200 * 10 > FAR) ∧
      rasterise_plane_span ⟨⟨⟨0, 0⟩, 10, 0, 1, 0⟩, view_frustum 1, 320, 320, 1 / 320, 0,
        640, 400⟩ texOpaque ⟨0, 0⟩ ⟨1, 0, 0, 1⟩ 10 200 0 640 = [] :=
  ⟨Or.inl (by norm_num [focal_height_ratio_at, RState.half_height]),
    C9_plane_span_depth_skip _ texOpaque ⟨0, 0⟩ ⟨1, 0, 0, 1⟩ 10 200 0 640
      (Or.inl (by norm_num [focal_height_ratio_at, RState.half_height]))⟩

/-! ### C10 -/

/-- C10: for every normalised-depth value (including negative ones) and
every bias, `mip_level` returns an index at most `MIP_LEVELS - 1 = 2`, so
indexing the `MIP_SCALES` arrays (both the `consts.rs` one of length 3 and
the `textures.rs` one of length 4 used by the plane rasteriser) and the
`texture.levels` array (length `textures.rs::MIP_LEVELS = 4`) with the
selected level is always in bounds. -/
theorem C10_mip_level_in_bounds :
    ∀ normal_depth bias : ℚ,
      mip_level normal_depth bias ≤ 2 ∧
      mip_level normal_depth bias < MIP_SCALES.length ∧
      mip_level normal_depth bias < TexMIP_SCALES.length ∧
      mip_level normal_depth bias < MIP_LEVELS ∧
      mip_level normal_depth bias < TexMIP_LEVELS := by
  intro nd b
  have h : mip_level nd b ≤ MIP_LEVELS - 1 := min_le_right _ _
  have h2 : MIP_LEVELS - 1 = 2 := by norm_num [MIP_LEVELS]
  refine ⟨by omega, ?_, ?_, ?_, ?_⟩ <;>
    simp only [MIP_SCALES, TexMIP_SCALES, MIP_LEVELS, TexMIP_LEVELS, List.length_cons,
      List.length_nil] <;> omega

/-! ### C4 -/

/-- C4 counterexample: with `inv_depth_a = 1 < inv_depth_b = 2` (endpoint
`b` strictly closer to the camera), `WallInterpolator::new` takes the
`inv_depth_a < inv_depth_b` branch, anchoring at endpoint `a` and computing
the clamp offset as `x_min - top_a.x`: its start value below is the
`a`-anchored expression.  The anchor `a` has the *smaller* inv_depth, so the
claim that the constructor anchors at the endpoint with the larger
inv_depth is false at this input. -/
theorem C4_anchor_counterexample :
    WallInterpolator.anchorsAtA 1 2 = true ∧ (1 : ℚ) < 2 ∧
      (WallInterpolator.new ⟨0, 10⟩ ⟨10, 20⟩ ⟨0, 30⟩ ⟨10, 40⟩ ⟨0, 0⟩ ⟨5, 5⟩ 1 2 2
        (1 / 10)).top_y = 10 + ((20 - 10) * (1 / 10)) * (2 - 0) := by
  refine ⟨by decide, by norm_num, ?_⟩
  norm_num [WallInterpolator.new, WallInterpolator.anchorsAtA]

/-- C4 (amended): the interpolator's start values are obtained by anchoring
at the endpoint with the *smaller* `inv_depth` — the endpoint farther from
the camera, which after near-plane clipping is the one that was not moved to
the near plane — and stepping toward the nearer endpoint, with the clamp
offset computed relative to that anchor (`x_min - top_a.x` when `a` is the
anchor, `top_b.x - x_min` when `b` is); with the exact gradient
(`inv_x_delta = 1 / (top_b.x - top_a.x)`), both anchorings produce the same
start values, so only the anchor's identity differs from the original
claim. -/
theorem C4_anchors_at_smaller_inv_depth
    (top_a top_b bottom_a bottom_b tex_a tex_b : Vec2)
    (inv_depth_a inv_depth_b x_min inv_x_delta : ℚ) :
    (WallInterpolator.anchorsAtA inv_depth_a inv_depth_b = true →
      inv_depth_a ≤ inv_depth_b ∧
        (WallInterpolator.new top_a top_b bottom_a bottom_b tex_a tex_b
          inv_depth_a inv_depth_b x_min inv_x_delta).top_y
          = top_a.y + ((top_b.y - top_a.y) * inv_x_delta) * (x_min - top_a.x)) ∧
    (WallInterpolator.anchorsAtA inv_depth_a inv_depth_b = false →
      inv_depth_b ≤ inv_depth_a ∧
        (WallInterpolator.new top_a top_b bottom_a bottom_b tex_a tex_b
          inv_depth_a inv_depth_b x_min inv_x_delta).top_y
          = top_b.y - ((top_b.y - top_a.y) * inv_x_delta) * (top_b.x - x_min)) ∧
    (top_a.x ≠ top_b.x → inv_x_delta = 1 / (top_b.x - top_a.x) →
      (WallInterpolator.new top_a top_b bottom_a bottom_b tex_a tex_b
        inv_depth_a inv_depth_b x_min inv_x_delta).top_y
        = top_a.y + ((top_b.y - top_a.y) * inv_x_delta) * (x_min - top_a.x)) := by
  refine ⟨?_, ?_, ?_⟩
  · intro h
    have hlt : inv_depth_a < inv_depth_b := by
      simpa [WallInterpolator.anchorsAtA] using h
    constructor
    · exact le_of_lt hlt
    · simp [WallInterpolator.new, WallInterpolator.anchorsAtA, hlt]
  · intro h
    have hge : ¬ inv_depth_a < inv_depth_b := by
      simpa [WallInterpolator.anchorsAtA] using h
    constructor
    · exact le_of_not_lt hge
    · simp [WallInterpolator.new, WallInterpolator.anchorsAtA, hge]
  · intro hne hdelta
    by_cases hlt : inv_depth_a < inv_depth_b
    · simp [WallInterpolator.new, WallInterpolator.anchorsAtA, hlt]
    · simp only [WallInterpolator.new, WallInterpolator.anchorsAtA, hlt,
        decide_eq_true_eq, if_neg, if_false]
      subst hdelta
      have hsub : top_b.x - top_a.x ≠ 0 := sub_ne_zero.mpr (Ne.symm hne)
      field_simp
      ring

/-- Witness for C4 on a concrete near-clipped wall: endpoint `b` was
clipped to the near plane (huge `inv_depth_b = 100000`), and the
constructor anchors at the unclipped endpoint `a`, whose inv_depth is the
smaller of the two. -/
theorem C4_anchors_at_smaller_inv_depth_witness :
    WallInterpolator.anchorsAtA 1 100000 = true ∧ (0 : ℚ) ≠ 10 ∧
      (1 / 10 : ℚ) = 1 / (10 - 0) ∧
      ((1 : ℚ) ≤ 100000 ∧
        (WallInterpolator.new ⟨0, 10⟩ ⟨10, 20⟩ ⟨0, 30⟩ ⟨10, 40⟩ ⟨0, 0⟩ ⟨5, 5⟩ 1 100000 2
          (1 / 10)).top_y = 10 + ((20 - 10) * (1 / 10)) * (2 - 0)) ∧
      (WallInterpolator.new ⟨0, 10⟩ ⟨10, 20⟩ ⟨0, 30⟩ ⟨10, 40⟩ ⟨0, 0⟩ ⟨5, 5⟩ 1 100000 2
        (1 / 10)).top_y = 10 + ((20 - 10) * (1 / 10)) * (2 - 0) :=
  ⟨by decide, by norm_num, by norm_num,
    (C4_anchors_at_smaller_inv_depth ⟨0, 10⟩ ⟨10, 20⟩ ⟨0, 30⟩ ⟨10, 40⟩ ⟨0, 0⟩ ⟨5, 5⟩
      1 100000 2 (1 / 10)).1 (by decide),
    (C4_anchors_at_smaller_inv_depth ⟨0, 10⟩ ⟨10, 20⟩ ⟨0, 30⟩ ⟨10, 40⟩ ⟨0, 0⟩ ⟨5, 5⟩
      1 100000 2 (1 / 10)).2.2 (by norm_num) (by norm_num)⟩

/-! ### renderer/portal.rs and renderer/sprite.rs -/

/-- Embeds `portal.rs::PortalNode`. -/
structure PortalNode where
  tree_depth : ℕ
  sector_index : ℕ
  x_min : ℕ
  x_max : ℕ
  depth_min : ℚ
  depth_max : ℚ
deriving DecidableEq, Repr

/-- Embeds `surface.rs::Sprite` (with the `sector_index` field that
`sprite.rs` reads, and the texture descriptor inlined). -/
structure Sprite where
  position : Vec2
  width : ℚ
  height : ℚ
  sector_index : ℕ
  tex_offset : Vec2
  tex_scale : Vec2
deriving DecidableEq, Repr

/-- Embeds `sprite.rs::SpriteInterpolator`. -/
structure SpriteInterpolator where
  top_y : ℚ
  bottom_y : ℚ
  u : ℚ
  u_m : ℚ
  v_start : ℚ
  v : ℚ
  v_m : ℚ
deriving DecidableEq, Repr

/-- Embeds `SpriteInterpolator::new`. -/
def SpriteInterpolator.new (top_left bottom_right tex_coord_a tex_coord_b : Vec2)
    (x_min : ℚ) : SpriteInterpolator :=
  let x_delta := bottom_right.x - top_left.x
  let y_delta := bottom_right.y - top_left.y
  let inv_x_delta := 1 / x_delta
  let inv_y_delta := 1 / y_delta
  let u_m := (tex_coord_b.x - tex_coord_a.x) * inv_x_delta
  let x_clamp_offset := x_min - top_left.x
  let u := tex_coord_a.x + u_m * x_clamp_offset
  let v_start := tex_coord_a.y
  ⟨top_left.y, bottom_right.y, u, u_m, v_start, v_start,
    (tex_coord_b.y - tex_coord_a.y) * inv_y_delta⟩

/-- Embeds `SpriteInterpolator::init_y`. -/
def SpriteInterpolator.init_y (sp : SpriteInterpolator) (y_min : ℕ) : SpriteInterpolator :=
  { sp with v := sp.v_start + sp.v_m * ((y_min : ℚ) - sp.top_y) }

/-- Embeds `SpriteInterpolator::step_x`. -/
def SpriteInterpolator.step_x (sp : SpriteInterpolator) : SpriteInterpolator :=
  { sp with u := sp.u + sp.u_m }

/-- The inner row loop of `rasterise_sprite_span`: a pixel is written only
when the darkened sample's alpha is non-zero. -/
def spriteSpanRows (t : Texture) (ml : ℕ) (ms : ℚ) (hmask tx light x : ℕ) :
    ℚ → ℚ → ℕ → ℕ → List Write
  | _, _, _, 0 => []
  | v, v_m, y, count + 1 =>
    let texture_y := ratToNat (v * ms) &&& hmask
    let colour := (t.sample tx texture_y ml).darken light
    (if colour.a ≠ 0 then [⟨x, y, colour⟩] else []) ++
      spriteSpanRows t ml ms hmask tx light x (v + v_m) v_m (y + 1) count

/-- Embeds `SpriteRenderer::rasterise_sprite_span`. -/
def rasterise_sprite_span (sp : SpriteInterpolator) (t : Texture) (ml : ℕ) (ms : ℚ)
    (light x y_min y_max : ℕ) : List Write :=
  let sp := sp.init_y y_min
  let width_mask := (t.levels ml).width - 1
  let height_mask := (t.levels ml).height - 1
  let texture_x := ratToNat (sp.u * ms) &&& width_mask
  spriteSpanRows t ml ms height_mask texture_x light x sp.v sp.v_m y_min (y_max - y_min)

/-- The column loop of `SpriteRenderer::rasterise_sprite`, clamping each
column's y-range to the per-sprite clip bounds. -/
def rasteriseSpriteCols (clipMin clipMax : ℕ → ℕ) (t : Texture) (ml : ℕ) (ms : ℚ)
    (light : ℕ) : SpriteInterpolator → ℕ → ℕ → List Write
  | _, _, 0 => []
  | sp, x, count + 1 =>
    let y_min := usizeClamp (ratToNat sp.top_y) (clipMin x) (clipMax x)
    let y_max := usizeClamp (ratToNat sp.bottom_y) (clipMin x) (clipMax x)
    rasterise_sprite_span sp t ml ms light x y_min y_max ++
      rasteriseSpriteCols clipMin clipMax t ml ms light sp.step_x (x + 1) count

/-- Embeds `SpriteRenderer::rasterise_sprite`: mip selection from the sprite's
single depth, then the column loop. -/
def rasterise_sprite (clipMin clipMax : ℕ → ℕ) (sp : SpriteInterpolator) (t : Texture)
    (depth : ℚ) (x_min x_max : ℕ) : List Write :=
  let normal_depth := normalise_depth depth
  let ml := mip_level normal_depth 0
  let ms := MIP_SCALES.getD ml 0
  let light := ratToNat (diminish_lighting normal_depth * 255)
  rasteriseSpriteCols clipMin clipMax t ml ms light sp x_min (x_max - x_min)

/-- The per-sprite clip state built by `draw_sprite`'s portal loop:
the `clip_min`/`clip_max` buffers and the collated x-bounds
`portals_x_min`/`portals_x_max`. -/
structure SpriteClip where
  clipMin : ℕ → ℕ
  clipMax : ℕ → ℕ
  px_min : ℕ
  px_max : ℕ

/-- One iteration of `draw_sprite`'s loop over the portal nodes: nodes of
other sectors are skipped; a matching node overwrites the sprite clip
bounds on the overlap of its x-range with the sprite's, and extends the
collated bounds by `portals_x_min.min(overlap_x_min)` /
`portals_x_max.max(overlap_x_max)` — also when the overlap is empty. -/
def spriteClipNode (bounds : ℕ → (ℕ → ℕ) × (ℕ → ℕ))
    (sprite_sector sprite_x_min sprite_x_max : ℕ) (cs : SpriteClip)
    (node : PortalNode) : SpriteClip :=
  if node.sector_index ≠ sprite_sector then cs
  else
    let portal_bounds := bounds node.tree_depth
    let overlap_x_min := max sprite_x_min node.x_min
    let overlap_x_max := min sprite_x_max node.x_max
    { clipMin := fun x => if overlap_x_min ≤ x ∧ x < overlap_x_max then
        portal_bounds.1 x else cs.clipMin x
      clipMax := fun x => if overlap_x_min ≤ x ∧ x < overlap_x_max then
        portal_bounds.2 x else cs.clipMax x
      px_min := min cs.px_min overlap_x_min
      px_max := max cs.px_max overlap_x_max }

/-- Embeds `SpriteRenderer::draw_sprite`: view transform, frustum cull, projection,
screen-y early-out, clamping to the screen, the portal-node clip loop, the
complete-obscuring early-out, texture-coordinate setup, and rasterisation. -/
def draw_sprite (st : RState) (bounds : ℕ → (ℕ → ℕ) × (ℕ → ℕ))
    (nodes : List PortalNode) (clipMin0 clipMax0 : ℕ → ℕ) (sprite : Sprite)
    (t : Texture) : List Write :=
  let vs := st.transform_view sprite.position
  let depth := vs.y
  let vs_a := vs.sub ⟨sprite.width * (1 / 2), 0⟩
  let vs_b := vs.add ⟨sprite.width * (1 / 2), 0⟩
  if ¬ (Seg.overlaps_polygon ⟨vs_a, vs_b⟩ st.frustum) then []
  else
    let top_left := st.project_screen_space vs_a sprite.height
    let bottom_right := st.project_screen_space vs_b 0
    if bottom_right.1.y < 0 ∨ top_left.1.y > (st.height : ℚ) then []
    else
      let sprite_x_min := usizeClamp (ratToNat top_left.1.x) 0 st.width
      let sprite_x_max := usizeClamp (ratToNat bottom_right.1.x) 0 st.width
      let cs := nodes.foldl
        (spriteClipNode bounds sprite.sector_index sprite_x_min sprite_x_max)
        ⟨clipMin0, clipMax0, st.width, 0⟩
      if cs.px_max ≤ cs.px_min then []
      else
        let tex_coord_a := (Vec2.add ⟨0, 0⟩ sprite.tex_offset).mul sprite.tex_scale
        let tex_coord_b := (Vec2.add ⟨sprite.width, sprite.height⟩
          sprite.tex_offset).mul sprite.tex_scale
        let sp := SpriteInterpolator.new top_left.1 bottom_right.1 tex_coord_a tex_coord_b
          (cs.px_min : ℚ)
        rasterise_sprite cs.clipMin cs.clipMax sp t depth cs.px_min cs.px_max

/-! ### C7 -/

theorem spriteSpanRows_colour (t : Texture) (ml : ℕ) (ms : ℚ) (hmask tx light x : ℕ)
    (v v_m : ℚ) (y count : ℕ) :
    ∀ wr ∈ spriteSpanRows t ml ms hmask tx light x v v_m y count,
      ∃ ty, wr.colour = (t.sample tx ty ml).darken light := by
  induction count generalizing v y with
  | zero => intro wr h; simp [spriteSpanRows] at h
  | succ n ih =>
    intro wr h
    rw [spriteSpanRows] at h
    rcases List.mem_append.mp h with h | h
    · rcases Decidable.em (((t.sample tx (ratToNat (v * ms) &&& hmask) ml).darken light).a ≠ 0)
        with he | he
      · rw [if_pos he] at h
        rcases List.mem_singleton.mp h with rfl
        exact ⟨_, rfl⟩
      · rw [if_neg he] at h
        exact absurd h (List.not_mem_nil wr)
    · exact ih (v + v_m) (y + 1) wr h

theorem rasteriseSpriteCols_colour (clipMin clipMax : ℕ → ℕ) (t : Texture) (ml : ℕ)
    (ms : ℚ) (light : ℕ) (sp : SpriteInterpolator) (x0 count : ℕ) :
    ∀ wr ∈ rasteriseSpriteCols clipMin clipMax t ml ms light sp x0 count,
      ∃ tx ty, wr.colour = (t.sample tx ty ml).darken light := by
  induction count generalizing sp x0 with
  | zero => intro wr h; simp [rasteriseSpriteCols] at h
  | succ n ih =>
    intro wr h
    rw [rasteriseSpriteCols] at h
    rcases List.mem_append.mp h with h | h
    · obtain ⟨ty, hc⟩ := spriteSpanRows_colour _ _ _ _ _ _ _ _ _ _ _ wr h
      exact ⟨_, ty, hc⟩
    · exact ih sp.step_x (x0 + 1) wr h

theorem planeSpanCols_colour (t : Texture) (ml light y wmask hmask : ℕ)
    (u v u_m v_m : ℚ) (x0 count : ℕ) :
    ∀ wr ∈ planeSpanCols t ml light y wmask hmask u v u_m v_m x0 count,
      ∃ tx ty, wr.colour = (t.sample tx ty ml).lighten light := by
  induction count generalizing u v x0 with
  | zero => intro wr h; simp [planeSpanCols] at h
  | succ n ih =>
    intro wr h
    rw [planeSpanCols] at h
    rcases List.mem_cons.mp h with rfl | h
    · exact ⟨_, _, rfl⟩
    · exact ih (u + u_m) (v + v_m) (x0 + 1) wr h

theorem rasteriseWallCols_colour (minb maxb : ℕ → ℕ) (lighting : ℚ) (t : Texture)
    (w : WallInterpolator) (x0 count : ℕ) (bufs : RasterBuffers) :
    ∀ wr ∈ (rasteriseWallCols minb maxb lighting t w x0 count bufs).2,
      ∃ tx ty ml light, wr.colour = (t.sample tx ty ml).darken light := by
  induction count generalizing w x0 bufs with
  | zero => intro wr h; simp [rasteriseWallCols] at h
  | succ n ih =>
    intro wr h
    rw [rasteriseWallCols] at h
    rcases List.mem_append.mp h with h | h
    · obtain ⟨-, -, -, hc⟩ := rasterise_wall_span_mem _ _ _ _ _ _ wr h
      exact hc
    · exact ih w.step_x (x0 + 1) _ wr h

theorem rasterisePortalCols_colour (minb maxb : ℕ → ℕ) (lighting : ℚ) (ut lt : Texture)
    (uw lw : WallInterpolator) (x0 count : ℕ) (bufs : RasterBuffers) :
    ∀ wr ∈ (rasterisePortalCols minb maxb lighting ut lt uw lw x0 count bufs).2,
      ∃ tx ty ml light, wr.colour = (Texture.sample ut tx ty ml).darken light ∨
        wr.colour = (Texture.sample lt tx ty ml).darken light := by
  induction count generalizing uw lw x0 bufs with
  | zero => intro wr h; simp [rasterisePortalCols] at h
  | succ n ih =>
    intro wr h
    rw [rasterisePortalCols] at h
    simp only [List.mem_append] at h
    rcases h with (h | h) | h
    · obtain ⟨-, -, -, tx, ty, ml, light, hc⟩ := rasterise_wall_span_mem _ _ _ _ _ _ wr h
      exact ⟨tx, ty, ml, light, Or.inl hc⟩
    · obtain ⟨-, -, -, tx, ty, ml, light, hc⟩ := rasterise_wall_span_mem _ _ _ _ _ _ wr h
      exact ⟨tx, ty, ml, light, Or.inr hc⟩
    · exact ih uw.step_x lw.step_x (x0 + 1) _ wr h

/-- A texture whose texels are not opaque (`α = 7`). -/
def tex7 : Texture := ⟨fun _ => ⟨16, 16, 0⟩, fun _ _ _ => ⟨10, 20, 30, 7⟩⟩

/-- C7 counterexample: a solid-wall span over a texture whose texels have
`α = 7` writes framebuffer pixels whose alpha is `7`, not the claimed
opaque `255` — `darken` copies the sampled texel's alpha through. -/
theorem C7_wall_alpha_counterexample :
    rasterise_wall_span uwWit 1 tex7 5 50 52 ≠ [] ∧
      ((rasterise_wall_span uwWit 1 tex7 5 50 52).all
        fun wr => decide (wr.colour.a = 255)) = false ∧
      ((rasterise_wall_span uwWit 1 tex7 5 50 52).all
        fun wr => decide (wr.colour.a = 7)) = true := by
  refine ⟨?_, ?_, ?_⟩ <;> decide

/-- C7 (amended): the darkening (and lightening) colour operations preserve
the alpha channel, so every pixel written by the wall rasteriser (solid
walls and portal bands), by the sprite rasteriser, and by the plane span
loop carries the alpha of the sampled source texel: when every texel of the
texture has alpha `a0`, every written pixel has alpha `a0`.  Pixels are
opaque only when the sampled texels are (true of generated mip levels, not
necessarily of level 0). -/
theorem C7_written_alpha_equals_texel_alpha (t : Texture) (a0 : ℕ)
    (ht : ∀ tx ty l, (t.sample tx ty l).a = a0) (minb maxb clipMin clipMax : ℕ → ℕ)
    (lighting : ℚ) (w uw lw : WallInterpolator) (sp : SpriteInterpolator)
    (ml light x0 count sx0 scount : ℕ) (msq : ℚ) (bufs bufs2 : RasterBuffers)
    (u v u_m v_m : ℚ) (pml plight py pwmask phmask px0 pcount : ℕ) :
    (∀ (c : BGRA8) (d : ℕ), (c.darken d).a = c.a) ∧
      (∀ (c : BGRA8) (l : ℕ), (c.lighten l).a = c.a) ∧
      (∀ wr ∈ (rasteriseWallCols minb maxb lighting t w x0 count bufs).2,
        wr.colour.a = a0) ∧
      (∀ wr ∈ (rasterisePortalCols minb maxb lighting t t uw lw x0 count bufs2).2,
        wr.colour.a = a0) ∧
      (∀ wr ∈ rasteriseSpriteCols clipMin clipMax t ml msq light sp sx0 scount,
        wr.colour.a = a0) ∧
      (∀ wr ∈ planeSpanCols t pml plight py pwmask phmask u v u_m v_m px0 pcount,
        wr.colour.a = a0) := by
  refine ⟨fun c d => rfl, fun c l => rfl, ?_, ?_, ?_, ?_⟩
  · intro wr h
    obtain ⟨tx, ty, l2, light2, hc⟩ :=
      rasteriseWallCols_colour minb maxb lighting t w x0 count bufs wr h
    simp [hc, BGRA8.darken, ht]
  · intro wr h
    obtain ⟨tx, ty, l2, light2, hc⟩ :=
      rasterisePortalCols_colour minb maxb lighting t t uw lw x0 count bufs2 wr h
    rcases hc with hc | hc <;> simp [hc, BGRA8.darken, ht]
  · intro wr h
    obtain ⟨tx, ty, hc⟩ :=
      rasteriseSpriteCols_colour clipMin clipMax t ml msq light sp sx0 scount wr h
    simp [hc, BGRA8.darken, ht]
  · intro wr h
    obtain ⟨tx, ty, hc⟩ :=
      planeSpanCols_colour t pml plight py pwmask phmask u v u_m v_m px0 pcount wr h
    simp [hc, BGRA8.lighten, ht]

/-- A concrete sprite interpolator state. -/
def spWit : SpriteInterpolator := ⟨50, 80, 0, 0, 0, 0, 1⟩

/-- Witness for C7 with the constant opaque texture: every write of the
concrete wall, portal-band, sprite and plane loops has alpha `255`. -/
theorem C7_written_alpha_equals_texel_alpha_witness :
    (∀ tx ty l, (texOpaque.sample tx ty l).a = 255) ∧
      ((∀ (c : BGRA8) (d : ℕ), (c.darken d).a = c.a) ∧
        (∀ (c : BGRA8) (l : ℕ), (c.lighten l).a = c.a) ∧
        (∀ wr ∈ (rasteriseWallCols (fun _ => 10) (fun _ => 300) 1 texOpaque uwWit
            5 2 bufsWit).2, wr.colour.a = 255) ∧
        (∀ wr ∈ (rasterisePortalCols (fun _ => 10) (fun _ => 300) 1 texOpaque texOpaque
            uwWit lwWit 5 2 bufsWit).2, wr.colour.a = 255) ∧
        (∀ wr ∈ rasteriseSpriteCols (fun _ => 10) (fun _ => 300) texOpaque 0 1 255 spWit
            5 2, wr.colour.a = 255) ∧
        (∀ wr ∈ planeSpanCols texOpaque 0 255 9 15 15 0 0 1 1 5 2, wr.colour.a = 255)) :=
  ⟨fun _ _ _ => rfl,
    C7_written_alpha_equals_texel_alpha texOpaque 255 (fun _ _ _ => rfl)
      (fun _ => 10) (fun _ => 300) (fun _ => 10) (fun _ => 300) 1 uwWit uwWit lwWit
      spWit 0 255 5 2 5 2 1 bufsWit bufsWit 0 0 1 1 0 255 9 15 15 5 2⟩

/-! ### textures.rs: mip-map generation -/

/-- Embeds `textures.rs::sample_clamp`: coordinates are clamped to the source
rectangle, then the flat buffer is indexed row-major. -/
def sample_clamp (src : ℕ → BGRA8) (src_width src_height x y : ℕ) : BGRA8 :=
  src (min y (src_height - 1) * src_width + min x (src_width - 1))

/-- Embeds `textures.rs::sample_wrap` (present in the source but unused by the
filter). -/
def sample_wrap (src : ℕ → BGRA8) (src_width src_height x y : ℕ) : BGRA8 :=
  src (y % src_height * src_width + x % src_width)

/-- One destination pixel of `textures.rs::downscale_3x3_box_filter`: the
nine *clamped* samples centred at `(2x, 2y)` (`saturating_sub` at the low
edges), the plain per-channel mean `Σ/9` of `r`,`g`,`b` over all nine
samples regardless of alpha, and alpha set to `0xFF`. -/
def downscalePixel (src : ℕ → BGRA8) (sw sh dx dy : ℕ) : BGRA8 :=
  let sx := dx * 2
  let sy := dy * 2
  let samples : List BGRA8 := [
    sample_clamp src sw sh (sx - 1) (sy - 1),
    sample_clamp src sw sh sx (sy - 1),
    sample_clamp src sw sh (sx + 1) (sy - 1),
    sample_clamp src sw sh (sx - 1) sy,
    sample_clamp src sw sh sx sy,
    sample_clamp src sw sh (sx + 1) sy,
    sample_clamp src sw sh (sx - 1) (sy + 1),
    sample_clamp src sw sh sx (sy + 1),
    sample_clamp src sw sh (sx + 1) (sy + 1)]
  let r := (samples.foldl (fun acc s => acc + s.r) 0) / 9
  let g := (samples.foldl (fun acc s => acc + s.g) 0) / 9
  let b := (samples.foldl (fun acc s => acc + s.b) 0) / 9
  BGRA8.new r g b 255

/-- Modelled from the spec: the filter §4.2 describes instead — wrap
addressing (`x - 1` wraps to `x + sw - 1` modulo the width) and the
alpha-weighted mean of the samples with `α = 0` samples skipped; `none`
when all nine samples are transparent (the destination pixel is then left
unchanged).  Used only to compare the spec's description against the
source's filter. -/
def downscaleSpecPixel (src : ℕ → BGRA8) (sw sh dx dy : ℕ) : Option BGRA8 :=
  let sx := dx * 2
  let sy := dy * 2
  let offs : List (ℕ × ℕ) := [
    (sx + sw - 1, sy + sh - 1), (sx, sy + sh - 1), (sx + 1, sy + sh - 1),
    (sx + sw - 1, sy), (sx, sy), (sx + 1, sy),
    (sx + sw - 1, sy + 1), (sx, sy + 1), (sx + 1, sy + 1)]
  let samples := offs.map fun p => sample_wrap src sw sh p.1 p.2
  let wsum := samples.foldl (fun acc s => acc + s.a) 0
  if wsum = 0 then none
  else
    some (BGRA8.new
      ((samples.foldl (fun acc s => acc + s.r * s.a) 0) / wsum)
      ((samples.foldl (fun acc s => acc + s.g * s.a) 0) / wsum)
      ((samples.foldl (fun acc s => acc + s.b * s.a) 0) / wsum) 255)

/-- Embeds `Texture::calculate_mip_levels`: dimensions halve per level, offsets
accumulate the preceding level sizes. -/
def mipLevelsFrom : ℕ → ℕ → ℕ → ℕ → List MipLevel
  | _, _, _, 0 => []
  | w, h, offset, k + 1 => ⟨w, h, offset⟩ :: mipLevelsFrom (w / 2) (h / 2) (offset + w * h) k

def calculate_mip_levels (w h : ℕ) : List MipLevel := mipLevelsFrom w h 0 TexMIP_LEVELS

/-- One iteration of `Texture::generate_mip_maps`: level `i` of the flat
buffer is overwritten, pixel by pixel, with the box filter of level `i-1`
(`src` starts at `levels[i-1].offset`, `dst` at `levels[i].offset`, and the
loop covers `src_width/2 × src_height/2` destination pixels). -/
def writeLevel (levels : List MipLevel) (i : ℕ) (buf : ℕ → BGRA8) : ℕ → BGRA8 :=
  let srcl := levels.getD (i - 1) ⟨0, 0, 0⟩
  let dstl := levels.getD i ⟨0, 0, 0⟩
  let dw := srcl.width / 2
  let dh := srcl.height / 2
  fun j =>
    if dstl.offset ≤ j ∧ j - dstl.offset < dw * dh then
      downscalePixel (fun k => buf (srcl.offset + k)) srcl.width srcl.height
        ((j - dstl.offset) % dw) ((j - dstl.offset) / dw)
    else buf j

/-- Embeds `Texture::generate_mip_maps` (`for i in 1..MIP_LEVELS`, with
`textures.rs::MIP_LEVELS = 4`). -/
def generate_mip_maps (levels : List MipLevel) (buf : ℕ → BGRA8) : ℕ → BGRA8 :=
  (List.range' 1 (TexMIP_LEVELS - 1)).foldl (fun b i => writeLevel levels i b) buf

/-- Embeds `Texture::sample` on the flat pixel buffer:
`pixels[levels[level].offset + y * levels[level].width + x]`. -/
def flatSample (levels : List MipLevel) (buf : ℕ → BGRA8) (x y level : ℕ) : BGRA8 :=
  buf ((levels.getD level ⟨0, 0, 0⟩).offset + (y * (levels.getD level ⟨0, 0, 0⟩).width + x))

theorem sample_clamp_congr {src1 src2 : ℕ → BGRA8} {sw sh : ℕ}
    (hsrc : ∀ j, j < sw * sh → src1 j = src2 j) (hw : 0 < sw) (hh : 0 < sh)
    (x y : ℕ) : sample_clamp src1 sw sh x y = sample_clamp src2 sw sh x y := by
  unfold sample_clamp
  exact hsrc _ (pixel_index_lt (by omega) (by omega))

theorem downscalePixel_congr {src1 src2 : ℕ → BGRA8} {sw sh : ℕ}
    (hsrc : ∀ j, j < sw * sh → src1 j = src2 j) (hw : 0 < sw) (hh : 0 < sh)
    (dx dy : ℕ) : downscalePixel src1 sw sh dx dy = downscalePixel src2 sw sh dx dy := by
  simp only [downscalePixel, sample_clamp_congr hsrc hw hh]

theorem writeLevel_frame (levels : List MipLevel) (i : ℕ) (buf : ℕ → BGRA8) (j : ℕ)
    (h : j < (levels.getD i ⟨0, 0, 0⟩).offset ∨
      (levels.getD i ⟨0, 0, 0⟩).offset +
        ((levels.getD (i - 1) ⟨0, 0, 0⟩).width / 2) *
          ((levels.getD (i - 1) ⟨0, 0, 0⟩).height / 2) ≤ j) :
    writeLevel levels i buf j = buf j := by
  simp only [writeLevel]
  rw [if_neg]
  omega

theorem writeLevel_value (levels : List MipLevel) (i : ℕ) (buf : ℕ → BGRA8)
    (x y : ℕ) (hx : x < (levels.getD (i - 1) ⟨0, 0, 0⟩).width / 2)
    (hy : y < (levels.getD (i - 1) ⟨0, 0, 0⟩).height / 2) :
    writeLevel levels i buf ((levels.getD i ⟨0, 0, 0⟩).offset +
        (y * ((levels.getD (i - 1) ⟨0, 0, 0⟩).width / 2) + x)) =
      downscalePixel (fun k => buf ((levels.getD (i - 1) ⟨0, 0, 0⟩).offset + k))
        (levels.getD (i - 1) ⟨0, 0, 0⟩).width (levels.getD (i - 1) ⟨0, 0, 0⟩).height
        x y := by
  have hdw : 0 < (levels.getD (i - 1) ⟨0, 0, 0⟩).width / 2 := by omega
  have hlt := pixel_index_lt (W := (levels.getD (i - 1) ⟨0, 0, 0⟩).width / 2)
    (H := (levels.getD (i - 1) ⟨0, 0, 0⟩).height / 2) hy hx
  simp only [writeLevel]
  rw [if_pos (by omega)]
  have h1 : (levels.getD i ⟨0, 0, 0⟩).offset +
      (y * ((levels.getD (i - 1) ⟨0, 0, 0⟩).width / 2) + x) -
        (levels.getD i ⟨0, 0, 0⟩).offset =
      y * ((levels.getD (i - 1) ⟨0, 0, 0⟩).width / 2) + x := by omega
  rw [h1]
  have h2 : (y * ((levels.getD (i - 1) ⟨0, 0, 0⟩).width / 2) + x) %
      ((levels.getD (i - 1) ⟨0, 0, 0⟩).width / 2) = x := by
    rw [Nat.mul_comm, Nat.mul_add_mod]
    exact Nat.mod_eq_of_lt hx
  have h3 : (y * ((levels.getD (i - 1) ⟨0, 0, 0⟩).width / 2) + x) /
      ((levels.getD (i - 1) ⟨0, 0, 0⟩).width / 2) = y := by
    rw [Nat.mul_comm, Nat.mul_add_div hdw, Nat.div_eq_of_lt hx]
    omega
  rw [h2, h3]

/-! ### C5 -/

/-- C5 (amended): for a texture whose base level is at least `8 × 8`, each
generated mip level `k ∈ {1, 2, 3}` of the flat pixel buffer equals, pixel
for pixel, the source's 3×3 box filter of the final content of level `k-1`:
*clamp* addressing centred at `(2x, 2y)`, the plain per-channel mean `Σ/9`
of the nine samples' `r`,`g`,`b` regardless of their alpha, and alpha set
to `255` on every destination pixel (so no destination pixel is ever left
unchanged). -/
theorem C5_mip_levels_clamp_mean_filter (w h : ℕ) (hw : 8 ≤ w) (hh : 8 ≤ h)
    (buf : ℕ → BGRA8) :
    ∀ k, 0 < k → k < TexMIP_LEVELS →
      ∀ x y, x < ((calculate_mip_levels w h).getD k ⟨0, 0, 0⟩).width →
        y < ((calculate_mip_levels w h).getD k ⟨0, 0, 0⟩).height →
        flatSample (calculate_mip_levels w h)
            (generate_mip_maps (calculate_mip_levels w h) buf) x y k =
          downscalePixel
            (fun j => generate_mip_maps (calculate_mip_levels w h) buf
              (((calculate_mip_levels w h).getD (k - 1) ⟨0, 0, 0⟩).offset + j))
            ((calculate_mip_levels w h).getD (k - 1) ⟨0, 0, 0⟩).width
            ((calculate_mip_levels w h).getD (k - 1) ⟨0, 0, 0⟩).height x y ∧
        (flatSample (calculate_mip_levels w h)
          (generate_mip_maps (calculate_mip_levels w h) buf) x y k).a = 255 := by
  intro k hk1 hk2 x y hx hy
  have hk4 : k < 4 := hk2
  have hlev : calculate_mip_levels w h =
      [⟨w, h, 0⟩, ⟨w / 2, h / 2, 0 + w * h⟩,
        ⟨w / 2 / 2, h / 2 / 2, 0 + w * h + w / 2 * (h / 2)⟩,
        ⟨w / 2 / 2 / 2, h / 2 / 2 / 2,
          0 + w * h + w / 2 * (h / 2) + w / 2 / 2 * (h / 2 / 2)⟩] := by
    simp [calculate_mip_levels, mipLevelsFrom, TexMIP_LEVELS]
  have hgen : generate_mip_maps (calculate_mip_levels w h) buf =
      writeLevel (calculate_mip_levels w h) 3
        (writeLevel (calculate_mip_levels w h) 2
          (writeLevel (calculate_mip_levels w h) 1 buf)) := rfl
  -- abbreviations for the getD projections after `hlev`
  have hget0 : (calculate_mip_levels w h).getD 0 ⟨0, 0, 0⟩ = ⟨w, h, 0⟩ := by
    rw [hlev]; rfl
  have hget1 : (calculate_mip_levels w h).getD 1 ⟨0, 0, 0⟩ = ⟨w / 2, h / 2, 0 + w * h⟩ := by
    rw [hlev]; rfl
  have hget2 : (calculate_mip_levels w h).getD 2 ⟨0, 0, 0⟩ =
      ⟨w / 2 / 2, h / 2 / 2, 0 + w * h + w / 2 * (h / 2)⟩ := by
    rw [hlev]; rfl
  have hget3 : (calculate_mip_levels w h).getD 3 ⟨0, 0, 0⟩ =
      ⟨w / 2 / 2 / 2, h / 2 / 2 / 2,
        0 + w * h + w / 2 * (h / 2) + w / 2 / 2 * (h / 2 / 2)⟩ := by
    rw [hlev]; rfl
  -- frame lemmas for each writeLevel, specialised through the projections
  have hf1 := fun (b : ℕ → BGRA8) (j : ℕ) hj => writeLevel_frame
    (calculate_mip_levels w h) 1 b j (by rw [hget1, hget0]; simpa using hj)
  have hf2 := fun (b : ℕ → BGRA8) (j : ℕ) hj => writeLevel_frame
    (calculate_mip_levels w h) 2 b j (by rw [hget2, hget1]; simpa using hj)
  have hf3 := fun (b : ℕ → BGRA8) (j : ℕ) hj => writeLevel_frame
    (calculate_mip_levels w h) 3 b j (by rw [hget3, hget2]; simpa using hj)
  interval_cases k
  · -- k = 1
    rw [hget1] at hx hy
    simp only [flatSample, hget1, hget0, hgen]
    constructor
    · have hidx : y * (w / 2) + x < w / 2 * (h / 2) := pixel_index_lt hy hx
      rw [hf3 _ _ (Or.inl (by omega)),
        hf2 _ _ (Or.inl (by omega))]
      have hv := writeLevel_value (calculate_mip_levels w h) 1 buf x y
        (by rw [hget0]; simpa using hx) (by rw [hget0]; simpa using hy)
      rw [hget1, hget0] at hv
      simp only at hv
      rw [show (0 + w * h) + (y * (w / 2) + x) = 0 + w * h + (y * (w / 2) + x) from rfl]
      rw [hv]
      refine (downscalePixel_congr ?_ (by omega) (by omega) x y).symm
      intro j hj
      rw [hf3 _ _ (Or.inl (by omega)),
        hf2 _ _ (Or.inl (by omega)),
        hf1 _ _ (Or.inl (by omega))]
    · have hidx : y * (w / 2) + x < w / 2 * (h / 2) := pixel_index_lt hy hx
      rw [hf3 _ _ (Or.inl (by omega)),
        hf2 _ _ (Or.inl (by omega))]
      have hv := writeLevel_value (calculate_mip_levels w h) 1 buf x y
        (by rw [hget0]; simpa using hx) (by rw [hget0]; simpa using hy)
      rw [hget1, hget0] at hv
      simp only at hv
      rw [hv]
      rfl
  · -- k = 2
    rw [hget2] at hx hy
    simp only [flatSample, hget2, hget1, hgen]
    constructor
    · have hidx : y * (w / 2 / 2) + x < w / 2 / 2 * (h / 2 / 2) := pixel_index_lt hy hx
      rw [hf3 _ _ (Or.inl (by omega))]
      have hv := writeLevel_value (calculate_mip_levels w h) 2
        (writeLevel (calculate_mip_levels w h) 1 buf) x y
        (by rw [hget1]; simpa using hx) (by rw [hget1]; simpa using hy)
      rw [hget2, hget1] at hv
      simp only at hv
      rw [hv]
      refine (downscalePixel_congr ?_ (by omega) (by omega) x y).symm
      intro j hj
      rw [hf3 _ _ (Or.inl (by omega)),
        hf2 _ _ (Or.inl (by omega))]
    · have hidx : y * (w / 2 / 2) + x < w / 2 / 2 * (h / 2 / 2) := pixel_index_lt hy hx
      rw [hf3 _ _ (Or.inl (by omega))]
      have hv := writeLevel_value (calculate_mip_levels w h) 2
        (writeLevel (calculate_mip_levels w h) 1 buf) x y
        (by rw [hget1]; simpa using hx) (by rw [hget1]; simpa using hy)
      rw [hget2, hget1] at hv
      simp only at hv
      rw [hv]
      rfl
  · -- k = 3
    rw [hget3] at hx hy
    simp only [flatSample, hget3, hget2, hgen]
    constructor
    · have hidx : y * (w / 2 / 2 / 2) + x < w / 2 / 2 / 2 * (h / 2 / 2 / 2) :=
        pixel_index_lt hy hx
      have hv := writeLevel_value (calculate_mip_levels w h) 3
        (writeLevel (calculate_mip_levels w h) 2
          (writeLevel (calculate_mip_levels w h) 1 buf)) x y
        (by rw [hget2]; simpa using hx) (by rw [hget2]; simpa using hy)
      rw [hget3, hget2] at hv
      simp only at hv
      rw [hv]
      refine (downscalePixel_congr ?_ (by omega) (by omega) x y).symm
      intro j hj
      rw [hf3 _ _ (Or.inl (by omega))]
    · have hidx : y * (w / 2 / 2 / 2) + x < w / 2 / 2 / 2 * (h / 2 / 2 / 2) :=
        pixel_index_lt hy hx
      have hv := writeLevel_value (calculate_mip_levels w h) 3
        (writeLevel (calculate_mip_levels w h) 2
          (writeLevel (calculate_mip_levels w h) 1 buf)) x y
        (by rw [hget2]; simpa using hx) (by rw [hget2]; simpa using hy)
      rw [hget3, hget2] at hv
      simp only at hv
      rw [hv]
      rfl

/-- A concrete 4×4 base image whose texels are all transparent
(`α = 0`, colour 5), over a default-initialised flat buffer. -/
def bufT : ℕ → BGRA8 := fun i => if i < 16 then ⟨5, 5, 5, 0⟩ else BGRA8.default

/-- C5 counterexample: on a 4×4 texture whose sixteen level-0 texels all
have `α = 0`, the spec's filter (wrap addressing, alpha-weighted mean,
skip `α = 0`) leaves the destination pixel unchanged (`none`), but the
source's `generate_mip_maps` overwrites the first level-1 pixel (flat index
16) with `(5,5,5,255)` — the plain mean of the transparent samples with
alpha forced opaque — changing it from its prior default value. -/
theorem C5_mip_filter_counterexample :
    (∀ j, j < 16 → (bufT j).a = 0) ∧
      downscaleSpecPixel bufT 4 4 0 0 = none ∧
      generate_mip_maps (calculate_mip_levels 4 4) bufT 16 =
        ⟨5, 5, 5, 255⟩ ∧
      generate_mip_maps (calculate_mip_levels 4 4) bufT 16 ≠ bufT 16 := by
  refine ⟨?_, by decide, by decide, by decide⟩
  intro j hj
  simp only [bufT, if_pos hj]

/-- Witness for C5 on a concrete 16×16 texture at level 1, pixel (0,0). -/
theorem C5_mip_levels_clamp_mean_filter_witness :
    8 ≤ 16 ∧ 0 < 1 ∧ 1 < TexMIP_LEVELS ∧
      0 < ((calculate_mip_levels 16 16).getD 1 ⟨0, 0, 0⟩).width ∧
      (flatSample (calculate_mip_levels 16 16)
          (generate_mip_maps (calculate_mip_levels 16 16) bufT) 0 0 1 =
        downscalePixel
          (fun j => generate_mip_maps (calculate_mip_levels 16 16) bufT
            (((calculate_mip_levels 16 16).getD 0 ⟨0, 0, 0⟩).offset + j))
          ((calculate_mip_levels 16 16).getD 0 ⟨0, 0, 0⟩).width
          ((calculate_mip_levels 16 16).getD 0 ⟨0, 0, 0⟩).height 0 0 ∧
        (flatSample (calculate_mip_levels 16 16)
          (generate_mip_maps (calculate_mip_levels 16 16) bufT) 0 0 1).a = 255) :=
  ⟨by decide, by decide, by decide, by decide,
    C5_mip_levels_clamp_mean_filter 16 16 (by decide) (by decide) bufT 1
      (by decide) (by decide) 0 0 (by decide) (by decide)⟩

/-! ### C6 -/

/-- A concrete renderer state: 640×400 screen, 90° horizontal FOV (so
`focal_width = 320`, with `focal_height` taken equal), camera at the
origin looking along +y, eye height 1/2, no pitch. -/
def stC6 : RState :=
  ⟨⟨⟨0, 0⟩, 1 / 2, 0, 1, 0⟩, view_frustum 1, 320, 320, 1 / 320, 0, 640, 400⟩

/-- A sprite of sector 0 in front of the camera whose projected screen
x-range is `[10, 20)`. -/
def spriteC6 : Sprite := ⟨⟨-61 / 2, 32⟩, 1, 1 / 10, 0, ⟨0, 0⟩, ⟨1, 1⟩⟩

/-- A frame's portal nodes: the root window (sector 1, full width) and two
portal windows into sector 0 at depth 1, columns `[0, 5)` and `[30, 40)` —
neither of the sector-0 windows overlaps the sprite's columns `[10, 20)`. -/
def nodesC6 : List PortalNode :=
  [⟨0, 1, 0, 640, NEAR, NEAR⟩, ⟨1, 0, 0, 5, NEAR, NEAR⟩, ⟨1, 0, 30, 40, NEAR, NEAR⟩]

/-- Full-screen depth-0 clip bounds. -/
def boundsC6 : ℕ → (ℕ → ℕ) × (ℕ → ℕ) := fun _ => (fun _ => 0, fun _ => 400)

set_option maxRecDepth 100000 in
unseal Rat.mul Rat.add Rat.inv Rat.sub in
/-- C6 failing input: the sprite's projected x-range `[10, 20)` overlaps
neither window of its sector (both overlaps are empty), yet `draw_sprite`
writes framebuffer pixels — among them at column 12 — because the collated
range is the *hull* `[min overlap starts, max overlap ends) = [10, 20)` of
the (empty) overlaps rather than their union, and the untouched stale clip
bounds are used there. -/
theorem C6_sprite_outside_windows_still_writes :
    ((draw_sprite stC6 boundsC6 nodesC6 (fun _ => 0) (fun _ => 400) spriteC6
        texOpaque).any fun wr => decide (wr.x = 12)) = true ∧
      (nodesC6.all fun n =>
        decide (n.sector_index ≠ spriteC6.sector_index) ||
          decide (min 20 n.x_max ≤ max 10 n.x_min)) = true ∧
      usizeClamp (ratToNat (stC6.project_screen_space
          ((stC6.transform_view spriteC6.position).sub ⟨spriteC6.width * (1 / 2), 0⟩)
          spriteC6.height).1.x) 0 stC6.width = 10 ∧
      usizeClamp (ratToNat (stC6.project_screen_space
          ((stC6.transform_view spriteC6.position).add ⟨spriteC6.width * (1 / 2), 0⟩)
          0).1.x) 0 stC6.width = 20 := by
  refine ⟨by decide, by decide, by decide, by decide⟩

/-! ### renderer/renderer.rs: the breadth-first portal traversal of `update` -/

/-- A wall as the traversal sees it: endpoints and, for a portal wall, the
neighbour sector index (`wall.portal.sector`). -/
structure RWall where
  a : Vec2
  b : Vec2
  portalSector : Option ℕ
deriving DecidableEq, Repr

/-- A sector: plane heights and walls (texture data omitted — it does not
influence which portal nodes are pushed). -/
structure RSector where
  ceiling : ℚ
  floor : ℚ
  walls : List RWall

/-- The node `WallRenderer::draw_portal_wall` pushes for one portal wall of
the current window, or `none` when one of its culls fires: the view
transform, the frustum cull, near-plane clipping of the view-space
endpoints, projection (screen x is independent of the plane height), the
back-face cull `top_a.x ≥ top_b.x`, the window-overlap cull, the clamp of
the column range to the window, and the min/max view depths; the child is
pushed at `tree_depth + 1` with the neighbour's sector index —
unconditionally, before any rasterisation and even when the clamped range
is empty.  (The source's near clip is an `else if`; here the second guard
reads the already-clipped `vs_a`, which agrees with the source because the
frustum cull has rejected every segment with both endpoints behind `NEAR`,
so at most one branch can fire.) -/
def processPortalWall (st : RState) (sector : RSector) (next_sector_index : ℕ)
    (wall : RWall) (node : PortalNode) : Option PortalNode :=
  let vs_a := st.transform_view wall.a
  let vs_b := st.transform_view wall.b
  if ¬ (Seg.overlaps_polygon ⟨vs_a, vs_b⟩ st.frustum) then none
  else
    let vs_a := if vs_a.y < NEAR then
        (⟨vs_a.x + (vs_b.x - vs_a.x) * ((NEAR - vs_a.y) / (vs_b.y - vs_a.y)), NEAR⟩ : Vec2)
      else vs_a
    let vs_b := if ¬ (vs_a.y < NEAR) ∧ vs_b.y < NEAR then
        (⟨vs_b.x + (vs_a.x - vs_b.x) * ((NEAR - vs_b.y) / (vs_a.y - vs_b.y)), NEAR⟩ : Vec2)
      else vs_b
    let top_a := st.project_screen_space vs_a sector.ceiling
    let top_b := st.project_screen_space vs_b sector.ceiling
    if top_a.1.x ≥ top_b.1.x then none
    else if top_b.1.x < (node.x_min : ℚ) ∨ top_a.1.x > (node.x_max : ℚ) then none
    else
      let x_min := usizeClamp (ratToNat top_a.1.x) node.x_min node.x_max
      let x_max := usizeClamp (ratToNat top_b.1.x) node.x_min node.x_max
      let inv_x_delta := 1 / (top_b.1.x - top_a.1.x)
      let depth_a := vs_a.magnitude_sq
      let depth_b := vs_b.magnitude_sq
      let depth_gradient := (depth_b - depth_a) * inv_x_delta
      let x_min_offset := (x_min : ℚ) - top_a.1.x
      let x_max_offset := top_a.1.x - (x_max : ℚ)
      let depth_a2 := depth_a + depth_gradient * x_min_offset
      let depth_b2 := depth_b + depth_gradient * x_max_offset
      some ⟨node.tree_depth + 1, next_sector_index, x_min, x_max,
        min depth_a2 depth_b2, max depth_a2 depth_b2⟩

/-- The nodes one `draw_sector` call appends while rendering one window:
one per portal wall of its sector that survives the culls (solid walls push
nothing). -/
def processNode (st : RState) (sectors : ℕ → RSector) (node : PortalNode) :
    List PortalNode :=
  (sectors node.sector_index).walls.filterMap fun w =>
    match w.portalSector with
    | none => none
    | some s2 => processPortalWall st (sectors node.sector_index) s2 w node

/-- One iteration of the `while portal_index < self.portal_tree.nodes_len()`
loop of `Renderer::update`: draw the sector of the node at the current
index (appending any child portal nodes) and advance the index. -/
def updateStep (st : RState) (sectors : ℕ → RSector) :
    List PortalNode × ℕ → List PortalNode × ℕ
  | (nodes, idx) =>
    if idx < nodes.length then
      (nodes ++ processNode st sectors (nodes.getD idx ⟨0, 0, 0, 0, 0, 0⟩), idx + 1)
    else (nodes, idx)

/-- The state of the traversal loop after `n` iterations. -/
def updateLoop (st : RState) (sectors : ℕ → RSector) (s0 : List PortalNode × ℕ)
    (n : ℕ) : List PortalNode × ℕ :=
  (updateStep st sectors)^[n] s0

/-- The loop of `Renderer::update` terminates from state `s0`: after some
number of iterations the index has caught up with the tail. -/
def updateTerminates (st : RState) (sectors : ℕ → RSector)
    (s0 : List PortalNode × ℕ) : Prop :=
  ∃ n, ¬ ((updateLoop st sectors s0 n).2 < (updateLoop st sectors s0 n).1.length)

/-! ### C8 -/

/-- A world with a single sector whose only wall is a portal wall referring
back to the sector itself — a legal input for the data model, which places
no constraint on portal targets. -/
def sectorsC8 : ℕ → RSector := fun _ => ⟨25, 0, [⟨⟨-10, 5⟩, ⟨10, 5⟩, some 0⟩]⟩

/-- The root node `Renderer::update` pushes. -/
def rootC8 : PortalNode := ⟨0, 0, 0, 640, NEAR, NEAR⟩

/-- The culls and the child's column range do not depend on the window's
depth fields: processing a window at any depth `d` yields the same child as
at depth 0, with `tree_depth` replaced by `d + 1`. -/
theorem processPortalWall_shape (st : RState) (sec : RSector) (s2 : ℕ) (w : RWall)
    (si xm xM : ℕ) (d : ℕ) (dm dM : ℚ) :
    processPortalWall st sec s2 w ⟨d, si, xm, xM, dm, dM⟩ =
      (processPortalWall st sec s2 w ⟨0, si, xm, xM, 0, 0⟩).map
        fun c => { c with tree_depth := d + 1 } := by
  simp only [processPortalWall]
  repeat' split
  all_goals rfl

set_option maxRecDepth 1000000 in
unseal Rat.mul Rat.add Rat.inv Rat.sub in
/-- Processing the self-portal window at depth 0 pushes the identical
full-width window one level deeper. -/
theorem processPortalWall_C8_closed :
    processPortalWall stC6 (sectorsC8 0) 0 ⟨⟨-10, 5⟩, ⟨10, 5⟩, some 0⟩
      ⟨0, 0, 0, 640, 0, 0⟩ = some ⟨1, 0, 0, 640, 125, 125⟩ := by decide

/-- Every window of sector 0 over the full column range `[0, 640]` spawns
exactly one child window: the same sector, same range, one level deeper. -/
theorem processNode_C8 (d : ℕ) (dm dM : ℚ) :
    processNode stC6 sectorsC8 ⟨d, 0, 0, 640, dm, dM⟩ =
      [⟨d + 1, 0, 0, 640, 125, 125⟩] := by
  have h := processPortalWall_shape stC6 (sectorsC8 0) 0 ⟨⟨-10, 5⟩, ⟨10, 5⟩, some 0⟩
    0 0 640 d dm dM
  rw [processPortalWall_C8_closed] at h
  simp only [sectorsC8] at h
  simp only [processNode, sectorsC8, List.filterMap]
  rw [h]
  rfl

/-- The node list after `n` iterations on the self-portal world. -/
def nodesC8 (n : ℕ) : List PortalNode :=
  rootC8 :: (List.range n).map fun i => ⟨i + 1, 0, 0, 640, 125, 125⟩

theorem updateLoop_C8 (n : ℕ) :
    updateLoop stC6 sectorsC8 ([rootC8], 0) n = (nodesC8 n, n) := by
  induction n with
  | zero => rfl
  | succ n ih =>
    have hstep : updateLoop stC6 sectorsC8 ([rootC8], 0) (n + 1) =
        updateStep stC6 sectorsC8 (updateLoop stC6 sectorsC8 ([rootC8], 0) n) :=
      Function.iterate_succ_apply' _ _ _
    rw [hstep, ih]
    have hlen : (nodesC8 n).length = n + 1 := by simp [nodesC8]
    have hget : (nodesC8 n).getD n ⟨0, 0, 0, 0, 0, 0⟩ =
        (⟨n, 0, 0, 640, if n = 0 then NEAR else 125, if n = 0 then NEAR else 125⟩ :
          PortalNode) := by
      cases n with
      | zero => rfl
      | succ m =>
        simp only [nodesC8, List.getD_cons_succ, if_neg (Nat.succ_ne_zero m)]
        rw [List.getD_eq_getElem?_getD, List.getElem?_map, List.getElem?_range
          (by omega : m < m + 1)]
        rfl
    rw [updateStep, if_pos (by omega : n < (nodesC8 n).length), hget]
    cases n with
    | zero =>
      rw [show (⟨0, 0, 0, 640, if (0 : ℕ) = 0 then NEAR else 125,
        if (0 : ℕ) = 0 then NEAR else 125⟩ : PortalNode) = ⟨0, 0, 0, 640, NEAR, NEAR⟩
        from rfl, processNode_C8]
      simp [nodesC8, List.range_succ]
    | succ m =>
      rw [show (⟨m + 1, 0, 0, 640, if m + 1 = 0 then NEAR else 125,
        if m + 1 = 0 then NEAR else 125⟩ : PortalNode) = ⟨m + 1, 0, 0, 640, 125, 125⟩
        from by simp, processNode_C8]
      simp [nodesC8, List.range_succ]

/-- C8 counterexample: on the self-portal world, the breadth-first loop of
`Renderer::update` never terminates — after every number of iterations the
index is still strictly below the tail, because each processed window
pushes one more identical window at the next depth. -/
theorem C8_self_portal_loop_never_ends :
    ¬ updateTerminates stC6 sectorsC8 ([rootC8], 0) := by
  rintro ⟨n, hn⟩
  rw [updateLoop_C8 n] at hn
  simp [nodesC8] at hn

/-- C8 (amended): the loop terminates whenever the traversal appends only
finitely many nodes; in particular, when no wall of any sector is a portal
wall, no node is ever appended and a single `update` call runs to
completion from any initial queue.  Cyclic portal references void the
guarantee, as the self-portal world shows. -/
theorem C8_terminates_when_no_portal_walls (st : RState) (sectors : ℕ → RSector)
    (hnp : ∀ i, ∀ w ∈ (sectors i).walls, w.portalSector = none)
    (nodes0 : List PortalNode) : updateTerminates st sectors (nodes0, 0) := by
  have hproc : ∀ node, processNode st sectors node = [] := by
    intro node
    unfold processNode
    rw [List.filterMap_eq_nil_iff]
    intro w hw
    rw [hnp node.sector_index w hw]
  have hloop : ∀ n, n ≤ nodes0.length →
      updateLoop st sectors (nodes0, 0) n = (nodes0, n) := by
    intro n
    induction n with
    | zero => intro _; rfl
    | succ m ih =>
      intro hm
      have hstep : updateLoop st sectors (nodes0, 0) (m + 1) =
          updateStep st sectors (updateLoop st sectors (nodes0, 0) m) :=
        Function.iterate_succ_apply' _ _ _
      rw [hstep, ih (by omega), updateStep, if_pos (by omega), hproc]
      simp
  exact ⟨nodes0.length, by rw [hloop _ le_rfl]; exact lt_irrefl _⟩

/-- Witness for C8 on a concrete portal-free world: a single sector with
one solid wall, initial queue holding only the root window. -/
theorem C8_terminates_when_no_portal_walls_witness :
    (∀ i : ℕ, ∀ w ∈ ((fun _ : ℕ => (⟨25, 0, [⟨⟨-10, 5⟩, ⟨10, 5⟩, none⟩]⟩ : RSector)) i).walls,
      w.portalSector = none) ∧
      updateTerminates stC6 (fun _ => ⟨25, 0, [⟨⟨-10, 5⟩, ⟨10, 5⟩, none⟩]⟩) ([rootC8], 0) :=
  ⟨fun _ w hw => by rcases List.mem_singleton.mp hw with rfl; rfl,
    C8_terminates_when_no_portal_walls stC6 (fun _ => ⟨25, 0, [⟨⟨-10, 5⟩, ⟨10, 5⟩, none⟩]⟩)
      (fun _ w hw => by rcases List.mem_singleton.mp hw with rfl; rfl) [rootC8]⟩

end Retro
